import Mathlib

/-!
Verification of the match-bot game engine in src/main.py: board generation,
configuration negotiation, the tap/selection state machine, and the high-score
ledger. The embedding is shallow: Python ints are modelled as Nat/Int, the
wall clock as rationals, Python dicts as insertion-ordered association lists,
and the random shuffle as an explicit permutation parameter. Cell keys, which
the program renders as the string f"x_y", are modelled by the pair (x, y),
with which they are in bijection. The stable Python list sort is modelled by
insertion sort, which is also stable, hence produces the identical list.
-/

/-- Maximum number of high scores stored per game configuration
(MAX_HIGH_SCORES_PER_CONFIG in src/main.py). -/
def MAX_HIGH_SCORES_PER_CONFIG : Nat := 10

/-- The emoji pool, byte-for-byte as stored in src/main.py. Note that the
stored file is encoding-corrupted: the 36 entries are not pairwise distinct
(entries 5 and 20 coincide, as do entries 4, 21 and 24). -/
def EMOJI_POOL : List String := ["ğŸ“", "ğŸŒ", "ğŸ‰", "ğŸ‡", "ğŸ¥", "ğŸ", "ğŸ‘", "ğŸ’", "ğŸ¥­", "ğŸ¥¥", "ğŸ¥‘", "ğŸ†", "ğŸ…", "ğŸŒ¶ï¸", "ğŸ¥•", "ğŸŒ½", "ğŸ¥¦", "ğŸ„", "ğŸ¥œ", "ğŸŒ°", "ğŸ", "ğŸ¥", "ğŸ¥¨", "ğŸ¥¯", "ğŸ¥", "ğŸ§‡", "ğŸ§€", "ğŸ–", "ğŸ—", "ğŸ¥©", "ğŸ”", "ğŸŸ", "ğŸ•", "ğŸŒ­", "ğŸ¥ª", "ğŸŒ®"]

/-- One board cell: its symbol, the transient revealed flag, and the
permanent revealed (locked) flag. Mirrors the CellInfo TypedDict. -/
structure CellInfo where
  value : String
  revealed : Bool
  permanently_revealed : Bool
deriving DecidableEq, Repr

/-- A cell key: the program uses the string f"x_y"; we use the pair (x, y). -/
abbrev CellId := Nat × Nat

/-- The board: an insertion-ordered association list, modelling the Python
dict board_cells. -/
abbrev BoardCells := List (CellId × CellInfo)

/-- Dict lookup on the board. -/
def getCell : BoardCells → CellId → Option CellInfo
  | [], _ => none
  | (k, c) :: rest, i => if k = i then some c else getCell rest i

/-- In-place update of the cell stored at a key, modelling mutation of the
dict entry. Keys not present are left untouched. -/
def modifyCell (b : BoardCells) (i : CellId) (f : CellInfo → CellInfo) : BoardCells :=
  b.map (fun p => if p.1 = i then (p.1, f p.2) else p)

/-- generate_dynamic_items from src/main.py. The first total/match_count
pool entries are each replicated match_count times and the result is
shuffled; random.shuffle is modelled by the explicit shuffle parameter. -/
def generate_dynamic_items (board_size_x board_size_y match_count : Nat)
    (shuffle : List String → List String) : Option (List String) :=
  let total_cells := board_size_x * board_size_y
  if total_cells % match_count ≠ 0 then none
  else
    let num_unique_item_sets := total_cells / match_count
    if num_unique_item_sets ≤ 1 ∧ 0 < total_cells then none
    else if EMOJI_POOL.length < num_unique_item_sets then none
    else some (shuffle ((List.range num_unique_item_sets).flatMap
      (fun i => List.replicate match_count (EMOJI_POOL.getD i ""))))

/-- The row-major list of cell keys produced by the nested loops of
get_initial_board_state: y outer, x inner, both starting at 1. -/
def cellIds (board_size_x board_size_y : Nat) : List CellId :=
  (List.range' 1 board_size_y).flatMap
    (fun y => (List.range' 1 board_size_x).map (fun x => (x, y)))

/-- get_initial_board_state from src/main.py. Returns the generated item
list (stored in user_data as game_items) together with the fresh board. -/
def get_initial_board_state (board_size_x board_size_y match_count : Nat)
    (shuffle : List String → List String) : Option (List String × BoardCells) :=
  match generate_dynamic_items board_size_x board_size_y match_count shuffle with
  | none => none
  | some items =>
    let ids := cellIds board_size_x board_size_y
    if ids.length ≤ items.length then
      some (items, (ids.zip items).map (fun p => (p.1, ⟨p.2, false, false⟩)))
    else none

/-- A high-score entry: player name and elapsed seconds. -/
structure ScoreEntry where
  name : String
  time : ℚ
deriving DecidableEq, Repr

/-- The sort key used on score lists: ascending elapsed time. -/
def scoreLe (a b : ScoreEntry) : Prop := a.time ≤ b.time

instance : DecidableRel scoreLe := fun a b => inferInstanceAs (Decidable (a.time ≤ b.time))

instance : IsTotal ScoreEntry scoreLe := ⟨fun a b => le_total a.time b.time⟩

instance : IsTrans ScoreEntry scoreLe := ⟨fun _ _ _ h1 h2 => le_trans h1 h2⟩

/-- Recording one score, as done inline in button_tap: append the entry,
stable-sort ascending by time, truncate to the maximum length. Insertion
sort is stable, so it computes the same list as the Python sort. -/
def record (scores : List ScoreEntry) (e : ScoreEntry) : List ScoreEntry :=
  ((scores ++ [e]).insertionSort scoreLe).take MAX_HIGH_SCORES_PER_CONFIG

/-- bot_data: the process-wide score table keyed by configuration key. -/
abbrev BotData := List (String × List ScoreEntry)

/-- Dict lookup in bot_data, with default empty list (bot_data.get(key, [])). -/
def getScores : BotData → String → List ScoreEntry
  | [], _ => []
  | (k, v) :: rest, key => if k = key then v else getScores rest key

/-- Dict assignment bot_data[key] = v: replace the value at an existing key
in place, or append a fresh binding at the end. -/
def setScores : BotData → String → List ScoreEntry → BotData
  | [], key, v => [(key, v)]
  | (k, w) :: rest, key, v =>
    if k = key then (key, v) :: rest else (k, w) :: setScores rest key v

/-- One element of current_selection: the tapped cell key and its symbol. -/
structure SelectedItem where
  id : CellId
  value : String
deriving DecidableEq, Repr

/-- The per-player game session state kept in user_data, together with the
process-wide bot_data score table that button_tap reads and writes. -/
structure GameState where
  board_cells : BoardCells
  current_selection : List SelectedItem
  matched_values : List String
  match_count : Nat
  game_items : List String
  game_start_time : ℚ
  board_size_x : Nat
  board_size_y : Nat
  bot_data : BotData
deriving DecidableEq, Repr

/-- What one tap reports back to the transport layer. -/
inductive Outcome where
  | ignored
  | pending
  | mismatch
  | matchProgress (symbol : String)
  | win (elapsed : ℚ)
deriving DecidableEq, Repr

/-- The configuration key f"x..y_match..mc" used for the score table. -/
def score_config_key (x y mc : Nat) : String :=
  toString x ++ "x" ++ toString y ++ "_match" ++ toString mc

/-- button_tap from src/main.py, restricted to its state transition: the
message/keyboard rendering performs no further state change. -/
def button_tap (st : GameState) (user_name : String) (cell_id : CellId) (now : ℚ) :
    GameState × Outcome :=
  match getCell st.board_cells cell_id with
  | none => (st, .ignored)
  | some tapped_cell_info =>
    if tapped_cell_info.permanently_revealed
        || st.current_selection.any (fun s => s.id == cell_id) then
      (st, .ignored)
    else
      let board1 := modifyCell st.board_cells cell_id (fun c => { c with revealed := true })
      let selection1 := st.current_selection ++ [⟨cell_id, tapped_cell_info.value⟩]
      if selection1.length = st.match_count then
        if (selection1.map (fun s => s.value)).dedup.length = 1 then
          let matched_value := (selection1.headD ⟨cell_id, tapped_cell_info.value⟩).value
          let matched1 :=
            if matched_value ∈ st.matched_values then st.matched_values
            else st.matched_values ++ [matched_value]
          let board2 := selection1.foldl
            (fun b s => modifyCell b s.id
              (fun c => { c with revealed := true, permanently_revealed := true })) board1
          if matched1.length = st.game_items.dedup.length then
            let time_taken := now - st.game_start_time
            let key := score_config_key st.board_size_x st.board_size_y st.match_count
            let bot1 := setScores st.bot_data key
              (record (getScores st.bot_data key) ⟨user_name, time_taken⟩)
            ({ st with
                board_cells := board2
                current_selection := []
                matched_values := matched1
                bot_data := bot1 },
              .win time_taken)
          else
            ({ st with
                board_cells := board2
                current_selection := []
                matched_values := matched1 },
              .matchProgress matched_value)
        else
          let board2 := selection1.foldl
            (fun b s => modifyCell b s.id (fun c => { c with revealed := false })) board1
          ({ st with board_cells := board2, current_selection := [] }, .mismatch)
      else
        ({ st with board_cells := board1, current_selection := selection1 }, .pending)

/-- Value of a decimal digit string, as computed by int() on digits. -/
def digitsToNat (cs : List Char) : Nat :=
  cs.foldl (fun n c => 10 * n + (c.toNat - Char.toNat '0')) 0

/-- Start codepoints of the 10-character runs of Unicode decimal digits
(category Nd): the characters matched by the backslash-d class of a Python
str regex and accepted as digits by int(). Every Nd run carries the digit
values 0 to 9 in order. -/
def UNICODE_DECIMAL_DIGIT_BLOCKS : List Nat :=
  [0x30, 0x660, 0x6F0, 0x7C0, 0x966, 0x9E6, 0xA66, 0xAE6, 0xB66, 0xBE6, 0xC66, 0xCE6, 0xD66, 0xDE6, 0xE50, 0xED0, 0xF20, 0x1040, 0x1090, 0x17E0, 0x1810, 0x1946, 0x19D0, 0x1A80, 0x1A90, 0x1B50, 0x1BB0, 0x1C40, 0x1C50, 0xA620, 0xA8D0, 0xA900, 0xA9D0, 0xA9F0, 0xAA50, 0xABF0, 0xFF10, 0x104A0, 0x10D30, 0x11066, 0x110F0, 0x11136, 0x111D0, 0x112F0, 0x11450, 0x114D0, 0x11650, 0x116C0, 0x11730, 0x118E0, 0x11950, 0x11C50, 0x11D50, 0x11DA0, 0x16A60, 0x16AC0, 0x16B50, 0x1D7CE, 0x1D7D8, 0x1D7E2, 0x1D7EC, 0x1D7F6, 0x1E140, 0x1E2F0, 0x1E950, 0x1FBF0]

/-- Membership in Unicode category Nd, the digit class of the stored
pattern. -/
def isDecimalDigit (c : Char) : Bool :=
  UNICODE_DECIMAL_DIGIT_BLOCKS.any
    (fun b => decide (b ≤ c.toNat) && decide (c.toNat < b + 10))

/-- The digit value of an Nd character: its offset inside its run. -/
def decimalDigitVal (c : Char) : Nat :=
  match UNICODE_DECIMAL_DIGIT_BLOCKS.find?
      (fun b => decide (b ≤ c.toNat) && decide (c.toNat < b + 10)) with
  | some b => c.toNat - b
  | none => 0

/-- Value of a run of decimal digits, as computed by int(). -/
def decimalDigitsToNat (cs : List Char) : Nat :=
  cs.foldl (fun n c => 10 * n + decimalDigitVal c) 0

/-- Full match of the dimension regex exactly as stored in src/main.py: a
nonempty run of Unicode decimal digits, one separator from the stored
character class - x, X, U+00C3 and U+2014, the latter two being the
encoding corruption of the multiplication sign U+00D7, whose UTF-8 bytes
C3 97 were re-decoded as those two characters - then a nonempty digit run
and nothing else. No separator is a digit, so the greedy first group is
exactly the leading digit run. -/
def parseDims (s : String) : Option (Nat × Nat) :=
  let cs := s.toList
  let d1 := cs.takeWhile isDecimalDigit
  match cs.dropWhile isDecimalDigit with
  | [] => none
  | sep :: d2 =>
    if (sep = 'x' ∨ sep = 'X' ∨ sep = 'Ã' ∨ sep = '—') ∧ d1 ≠ [] ∧ d2 ≠ [] ∧
        d2.all isDecimalDigit then
      some (decimalDigitsToNat d1, decimalDigitsToNat d2)
    else none

/-- The modelled parse agrees with the stored pattern bytes: both ASCII
separators and the two mojibake separators are accepted, the multiplication
sign itself is format-rejected, and Unicode decimal digits parse with their
digit values. -/
theorem parseDims_stored_class_examples :
    parseDims "3x3" = some (3, 3) ∧ parseDims "3X3" = some (3, 3) ∧
    parseDims "3×3" = none ∧ parseDims "3Ã3" = some (3, 3) ∧
    parseDims "3—3" = some (3, 3) ∧ parseDims "٣x٣" = some (3, 3) ∧
    parseDims "٣—٤" = some (3, 4) ∧ parseDims "3xx3" = none ∧
    parseDims "x3" = none ∧ parseDims "3x" = none ∧ parseDims " 3x3" = none ∧
    parseDims "12x9" = some (12, 9) := by decide

/-- The diagnostics the dimensions stage can emit while re-prompting. -/
inductive DimsDiag where
  | formatError
  | boundsError
  | tooSmallError
  | poolCeilingError
deriving DecidableEq, Repr

/-- Result of the dimensions stage: re-prompt and stay, or advance with the
accepted dimensions. -/
inductive DimsResult where
  | reprompt (d : DimsDiag)
  | next (board_size_x board_size_y : Nat)
deriving DecidableEq, Repr

/-- choose_dimensions from src/main.py (its state transition). -/
def choose_dimensions (input : String) : DimsResult :=
  match parseDims input with
  | none => .reprompt .formatError
  | some (x_dim, y_dim) =>
    if 8 < x_dim ∨ 9 < y_dim ∨ x_dim = 0 ∨ y_dim = 0 then .reprompt .boundsError
    else if x_dim * y_dim < 2 then .reprompt .tooSmallError
    else if EMOJI_POOL.length * 10 < x_dim * y_dim then .reprompt .poolCeilingError
    else .next x_dim y_dim

/-- int() on a trimmed decimal string: optional sign then digits. -/
def parseInt (s : String) : Option Int :=
  match s.toList with
  | [] => none
  | '-' :: rest =>
    if rest ≠ [] ∧ rest.all Char.isDigit then some (-(digitsToNat rest : Int)) else none
  | '+' :: rest =>
    if rest ≠ [] ∧ rest.all Char.isDigit then some ((digitsToNat rest : Int)) else none
  | cs =>
    if cs.all Char.isDigit then some ((digitsToNat cs : Int)) else none

/-- The diagnostics the group-size stage can emit while re-prompting. -/
inductive MatchCountDiag where
  | notAnInt
  | rangeError
  | divisibilityError
  | tooFewGroupsError
  | poolError
deriving DecidableEq, Repr

/-- Result of the group-size stage: re-prompt and stay, abort the
conversation (board construction failed), or start a session. -/
inductive MatchCountResult where
  | reprompt (d : MatchCountDiag)
  | failed
  | started (st : GameState)
deriving DecidableEq

/-- choose_match_count from src/main.py (its state transition): validate the
parsed integer in source order, then build the board and the session. -/
def choose_match_count (board_size_x board_size_y : Nat) (input : String)
    (bot_data : BotData) (t : ℚ) (shuffle : List String → List String) :
    MatchCountResult :=
  match parseInt input with
  | none => .reprompt .notAnInt
  | some m =>
    let total_cells := board_size_x * board_size_y
    if ¬(1 < m ∧ m ≤ (total_cells : Int)) then .reprompt .rangeError
    else
      let match_count := m.toNat
      if total_cells % match_count ≠ 0 then .reprompt .divisibilityError
      else
        let num_unique_item_sets := total_cells / match_count
        if num_unique_item_sets ≤ 1 ∧ 1 < total_cells then .reprompt .tooFewGroupsError
        else if EMOJI_POOL.length < num_unique_item_sets then .reprompt .poolError
        else
          match get_initial_board_state board_size_x board_size_y match_count shuffle with
          | none => .failed
          | some (items, board) =>
            .started {
              board_cells := board
              current_selection := []
              matched_values := []
              match_count := match_count
              game_items := items
              game_start_time := t
              board_size_x := board_size_x
              board_size_y := board_size_y
              bot_data := bot_data }

/-- One tap event delivered to button_tap. -/
structure TapEvent where
  user_name : String
  cell : CellId
  now : ℚ

/-- A whole sequence of taps, applied in order. -/
def applyTaps (st : GameState) (taps : List TapEvent) : GameState :=
  taps.foldl (fun s t => (button_tap s t.user_name t.cell t.now).1) st


/-! ### Basic lemmas about board lookup and update -/

theorem modifyCell_cons (k : CellId) (c : CellInfo) (rest : BoardCells) (i : CellId)
    (f : CellInfo → CellInfo) :
    modifyCell ((k, c) :: rest) i f =
      (if k = i then (k, f c) else (k, c)) :: modifyCell rest i f := by
  by_cases h : k = i <;> simp [modifyCell, h]

theorem getCell_modifyCell (b : BoardCells) (i : CellId) (f : CellInfo → CellInfo)
    (j : CellId) :
    getCell (modifyCell b i f) j = if j = i then (getCell b j).map f else getCell b j := by
  induction b with
  | nil => simp [modifyCell, getCell]
  | cons p rest ih =>
    obtain ⟨k, c⟩ := p
    rw [modifyCell_cons]
    by_cases hki : k = i
    · rw [if_pos hki]
      by_cases hkj : k = j
      · have hji : j = i := by rw [← hkj, hki]
        simp only [getCell, if_pos hkj, if_pos hji]
        rfl
      · have hji : j ≠ i := fun h => hkj (by rw [hki, ← h])
        simp only [getCell, if_neg hkj, ih, if_neg hji]
    · rw [if_neg hki]
      by_cases hkj : k = j
      · have hji : j ≠ i := fun h => hki (by rw [hkj, h])
        simp only [getCell, if_pos hkj, if_neg hji]
      · simp only [getCell, if_neg hkj, ih]

theorem getCell_foldl_modifyCell (sel : List SelectedItem) (b : BoardCells)
    (f : CellInfo → CellInfo) (hf : ∀ c, f (f c) = f c) (j : CellId) :
    getCell (sel.foldl (fun acc s => modifyCell acc s.id f) b) j =
      if ∃ s ∈ sel, s.id = j then (getCell b j).map f else getCell b j := by
  induction sel generalizing b with
  | nil => simp
  | cons a rest ih =>
    rw [List.foldl_cons, ih, getCell_modifyCell]
    by_cases haj : j = a.id
    · by_cases hr : ∃ s ∈ rest, s.id = j
      · rw [if_pos hr, if_pos haj, if_pos (by exact ⟨a, by simp [haj]⟩), Option.map_map]
        have hff : f ∘ f = f := funext hf
        rw [hff]
      · rw [if_neg hr, if_pos haj, if_pos (by exact ⟨a, by simp [haj]⟩)]
    · by_cases hr : ∃ s ∈ rest, s.id = j
      · rw [if_pos hr, if_neg haj, if_pos]
        obtain ⟨s, hs, hsj⟩ := hr
        exact ⟨s, by simp [hs], hsj⟩
      · rw [if_neg hr, if_neg haj, if_neg]
        rintro ⟨s, hs, hsj⟩
        rcases List.mem_cons.mp hs with h | h
        · exact haj (by rw [← hsj, h])
        · exact hr ⟨s, h, hsj⟩

theorem boardValues_modifyCell (b : BoardCells) (i : CellId) (f : CellInfo → CellInfo)
    (hf : ∀ c, (f c).value = c.value) :
    (modifyCell b i f).map (fun p => p.2.value) = b.map (fun p => p.2.value) := by
  unfold modifyCell
  rw [List.map_map]
  apply List.map_congr_left
  intro p _
  by_cases h : p.1 = i <;> simp [h, hf]

theorem boardValues_foldl_modifyCell (sel : List SelectedItem) (b : BoardCells)
    (f : CellInfo → CellInfo) (hf : ∀ c, (f c).value = c.value) :
    (sel.foldl (fun acc s => modifyCell acc s.id f) b).map (fun p => p.2.value) =
      b.map (fun p => p.2.value) := by
  induction sel generalizing b with
  | nil => simp
  | cons a rest ih => rw [List.foldl_cons, ih, boardValues_modifyCell _ _ _ hf]

theorem getCell_some_value_mem (b : BoardCells) (j : CellId) (c : CellInfo)
    (h : getCell b j = some c) : c.value ∈ b.map (fun p => p.2.value) := by
  induction b with
  | nil => simp [getCell] at h
  | cons p rest ih =>
    obtain ⟨k, c0⟩ := p
    simp only [getCell] at h
    by_cases hk : k = j
    · rw [if_pos hk] at h
      simp [← Option.some_inj.mp h]
    · rw [if_neg hk] at h
      simp [ih h]

theorem dedup_length_eq_one_iff {α : Type} [DecidableEq α] {l : List α} {a : α}
    (ha : a ∈ l) : l.dedup.length = 1 ↔ ∀ b ∈ l, b = a := by
  constructor
  · intro h b hb
    obtain ⟨x, hx⟩ := List.length_eq_one.mp h
    have h1 : b = x := by
      have hm := List.mem_dedup.mpr hb
      rw [hx] at hm
      simpa using hm
    have h2 : a = x := by
      have hm := List.mem_dedup.mpr ha
      rw [hx] at hm
      simpa using hm
    rw [h1, h2]
  · intro h
    have hmem : a ∈ l.dedup := List.mem_dedup.mpr ha
    have hall : ∀ b ∈ l.dedup, b = a := fun b hb => h b (List.mem_dedup.mp hb)
    have hnd : l.dedup.Nodup := List.nodup_dedup l
    cases hd : l.dedup with
    | nil => rw [hd] at hmem; simp at hmem
    | cons x rest =>
      rw [hd] at hall hnd
      cases rest with
      | nil => rfl
      | cons y rest2 =>
        have hxa : x = a := hall x (by simp)
        have hya : y = a := hall y (by simp)
        rw [List.nodup_cons] at hnd
        exact absurd (by simp [hxa, hya]) hnd.1

/-! ### C5: invalid taps are silently absorbed -/

/-- C5: a tap whose coordinate is not on the board, whose target cell is
locked, or whose coordinate already appears in the selection buffer changes
no session state, returns the ignored outcome, and repeating the tap yields
the same ignored outcome every time. -/
theorem c5_invalid_taps_silently_absorbed (st : GameState) (user_name : String)
    (c : CellId) (now now2 : ℚ)
    (h : getCell st.board_cells c = none ∨
      (∃ cell, getCell st.board_cells c = some cell ∧ cell.permanently_revealed = true) ∨
      (∃ s ∈ st.current_selection, s.id = c)) :
    button_tap st user_name c now = (st, Outcome.ignored) ∧
      button_tap (button_tap st user_name c now).1 user_name c now2 =
        (st, Outcome.ignored) := by
  have main : ∀ n : ℚ, button_tap st user_name c n = (st, Outcome.ignored) := by
    intro n
    unfold button_tap
    rcases h with h | ⟨cell, hc, hp⟩ | ⟨s, hs, hid⟩
    · rw [h]
    · rw [hc]
      simp [hp]
    · cases hcell : getCell st.board_cells c with
      | none => rfl
      | some cell =>
        simp only []
        rw [if_pos]
        rw [Bool.or_eq_true]
        right
        rw [List.any_eq_true]
        exact ⟨s, hs, by rw [hid]; exact beq_self_eq_true c⟩
  refine ⟨main now, ?_⟩
  rw [main now]
  exact main now2

/-! ### C2: resolution at a full selection buffer -/

/-- C2: when a tap makes the selection buffer reach exactly group_size
entries, the outcome is a match iff all buffered symbols are identical; on a
match every buffered cell is locked and revealed, on a mismatch every
buffered cell returns to revealed = false, and the buffer is cleared in both
cases. -/
theorem c2_full_buffer_resolution (st : GameState) (user_name : String) (c : CellId)
    (now : ℚ) (cell : CellInfo) (st2 : GameState) (out : Outcome)
    (hc : getCell st.board_cells c = some cell)
    (hp : cell.permanently_revealed = false)
    (hns : ∀ s ∈ st.current_selection, s.id ≠ c)
    (hsel : ∀ s ∈ st.current_selection, ∃ c0, getCell st.board_cells s.id = some c0)
    (hlen : st.current_selection.length + 1 = st.match_count)
    (htap : button_tap st user_name c now = (st2, out)) :
    st2.current_selection = [] ∧
    (out = Outcome.mismatch ↔
      ¬ ∀ s ∈ st.current_selection ++ [(⟨c, cell.value⟩ : SelectedItem)],
        s.value = cell.value) ∧
    (((∃ v, out = Outcome.matchProgress v) ∨ (∃ e, out = Outcome.win e)) ↔
      ∀ s ∈ st.current_selection ++ [(⟨c, cell.value⟩ : SelectedItem)],
        s.value = cell.value) ∧
    ((∀ s ∈ st.current_selection ++ [(⟨c, cell.value⟩ : SelectedItem)],
        s.value = cell.value) →
      ∀ s ∈ st.current_selection ++ [(⟨c, cell.value⟩ : SelectedItem)],
        ∃ c1, getCell st2.board_cells s.id = some c1 ∧
          c1.permanently_revealed = true ∧ c1.revealed = true) ∧
    ((¬ ∀ s ∈ st.current_selection ++ [(⟨c, cell.value⟩ : SelectedItem)],
        s.value = cell.value) →
      ∀ s ∈ st.current_selection ++ [(⟨c, cell.value⟩ : SelectedItem)],
        ∃ c1, getCell st2.board_cells s.id = some c1 ∧ c1.revealed = false) := by
  have h0 : (cell.permanently_revealed
      || st.current_selection.any (fun s => s.id == c)) = false := by
    rw [Bool.or_eq_false_iff]
    refine ⟨hp, ?_⟩
    rw [List.any_eq_false]
    intro s hs
    simpa using hns s hs
  have hmem : cell.value ∈
      (st.current_selection ++ [(⟨c, cell.value⟩ : SelectedItem)]).map
        (fun s => s.value) := by simp
  have hiff : (((st.current_selection ++ [(⟨c, cell.value⟩ : SelectedItem)]).map
        (fun s => s.value)).dedup.length = 1) ↔
      ∀ s ∈ st.current_selection ++ [(⟨c, cell.value⟩ : SelectedItem)],
        s.value = cell.value := by
    rw [dedup_length_eq_one_iff hmem]
    constructor
    · intro h s hs
      exact h s.value (List.mem_map_of_mem _ hs)
    · intro h v hv
      obtain ⟨s, hs, rfl⟩ := List.mem_map.mp hv
      exact h s hs
  have hsel1 : ∀ s ∈ st.current_selection ++ [(⟨c, cell.value⟩ : SelectedItem)],
      ∃ c0, getCell st.board_cells s.id = some c0 := by
    intro s hs
    rcases List.mem_append.mp hs with h | h
    · exact hsel s h
    · simp only [List.mem_singleton] at h
      rw [h]
      exact ⟨cell, hc⟩
  unfold button_tap at htap
  rw [hc] at htap
  simp only [h0, Bool.false_eq_true, if_false] at htap
  rw [List.length_append, List.length_singleton, hlen, if_pos rfl] at htap
  by_cases hm : (((st.current_selection ++ [(⟨c, cell.value⟩ : SelectedItem)]).map
      (fun s => s.value)).dedup.length = 1)
  · rw [if_pos hm] at htap
    have hall := hiff.mp hm
    have hboard : ∀ s ∈ st.current_selection ++ [(⟨c, cell.value⟩ : SelectedItem)],
        ∃ c1, getCell st2.board_cells s.id = some c1 ∧
          c1.permanently_revealed = true ∧ c1.revealed = true := by
      have hbc : st2.board_cells =
          (st.current_selection ++ [(⟨c, cell.value⟩ : SelectedItem)]).foldl
            (fun b s => modifyCell b s.id
              (fun c0 => { c0 with revealed := true, permanently_revealed := true }))
            (modifyCell st.board_cells c (fun c0 => { c0 with revealed := true })) := by
        by_cases hw : (if ((st.current_selection ++
              [(⟨c, cell.value⟩ : SelectedItem)]).headD ⟨c, cell.value⟩).value ∈
              st.matched_values then st.matched_values
            else st.matched_values ++ [((st.current_selection ++
              [(⟨c, cell.value⟩ : SelectedItem)]).headD ⟨c, cell.value⟩).value]).length =
            st.game_items.dedup.length
        · rw [if_pos hw] at htap
          injection htap with h1 _
          rw [← h1]
        · rw [if_neg hw] at htap
          injection htap with h1 _
          rw [← h1]
      intro s hs
      rw [hbc, getCell_foldl_modifyCell _ _
          (fun c0 => { c0 with revealed := true, permanently_revealed := true })
          (fun c0 => rfl) s.id,
        if_pos ⟨s, hs, rfl⟩, getCell_modifyCell]
      by_cases hsc : s.id = c
      · rw [if_pos hsc, hsc, hc]
        exact ⟨_, rfl, rfl, rfl⟩
      · rw [if_neg hsc]
        obtain ⟨c0, hc0⟩ := hsel1 s hs
        rw [hc0]
        exact ⟨_, rfl, rfl, rfl⟩
    have hout : (∃ v, out = Outcome.matchProgress v) ∨ (∃ e, out = Outcome.win e) := by
      by_cases hw : (if ((st.current_selection ++
            [(⟨c, cell.value⟩ : SelectedItem)]).headD ⟨c, cell.value⟩).value ∈
            st.matched_values then st.matched_values
          else st.matched_values ++ [((st.current_selection ++
            [(⟨c, cell.value⟩ : SelectedItem)]).headD ⟨c, cell.value⟩).value]).length =
          st.game_items.dedup.length
      · rw [if_pos hw] at htap
        injection htap with _ h2
        exact Or.inr ⟨_, h2.symm⟩
      · rw [if_neg hw] at htap
        injection htap with _ h2
        exact Or.inl ⟨_, h2.symm⟩
    have hselempty : st2.current_selection = [] := by
      by_cases hw : (if ((st.current_selection ++
            [(⟨c, cell.value⟩ : SelectedItem)]).headD ⟨c, cell.value⟩).value ∈
            st.matched_values then st.matched_values
          else st.matched_values ++ [((st.current_selection ++
            [(⟨c, cell.value⟩ : SelectedItem)]).headD ⟨c, cell.value⟩).value]).length =
          st.game_items.dedup.length
      · rw [if_pos hw] at htap
        injection htap with h1 _
        rw [← h1]
      · rw [if_neg hw] at htap
        injection htap with h1 _
        rw [← h1]
    refine ⟨hselempty, ?_, ?_, fun _ => hboard, fun hn => absurd hall hn⟩
    · constructor
      · intro hmm
        rcases hout with ⟨v, hv⟩ | ⟨e, he⟩
        · rw [hv] at hmm
          simp at hmm
        · rw [he] at hmm
          simp at hmm
      · intro hn
        exact absurd hall hn
    · exact ⟨fun _ => hall, fun _ => hout⟩
  · rw [if_neg hm] at htap
    injection htap with h1 h2
    have hall : ¬ ∀ s ∈ st.current_selection ++ [(⟨c, cell.value⟩ : SelectedItem)],
        s.value = cell.value := fun h => hm (hiff.mpr h)
    refine ⟨by rw [← h1], ?_, ?_, fun h => absurd h hall, ?_⟩
    · rw [← h2]
      exact iff_of_true rfl hall
    · constructor
      · rintro (⟨v, hv⟩ | ⟨e, he⟩)
        · rw [← h2] at hv
          simp at hv
        · rw [← h2] at he
          simp at he
      · intro h
        exact absurd h hall
    · intro _ s hs
      rw [← h1]
      simp only []
      rw [getCell_foldl_modifyCell _ _ (fun c0 => { c0 with revealed := false })
          (fun c0 => rfl) s.id,
        if_pos ⟨s, hs, rfl⟩, getCell_modifyCell]
      by_cases hsc : s.id = c
      · rw [if_pos hsc, hsc, hc]
        exact ⟨_, rfl, rfl⟩
      · rw [if_neg hsc]
        obtain ⟨c0, hc0⟩ := hsel1 s hs
        rw [hc0]
        exact ⟨_, rfl, rfl⟩

/-- Witness for C2 at a concrete 2x2 session: tapping the second matching
cell resolves a match, clears the buffer and locks the tapped pair. -/
theorem c2_full_buffer_resolution_witness :
    ({ board_cells := [((1, 1), ⟨"A", true, true⟩), ((2, 1), ⟨"A", true, true⟩),
          ((1, 2), ⟨"B", false, false⟩), ((2, 2), ⟨"B", false, false⟩)],
        current_selection := [], matched_values := ["A"], match_count := 2,
        game_items := ["A", "A", "B", "B"], game_start_time := 0,
        board_size_x := 2, board_size_y := 2, bot_data := [] } :
      GameState).current_selection = [] ∧
    ∃ c1, getCell [((1, 1), (⟨"A", true, true⟩ : CellInfo)), ((2, 1), ⟨"A", true, true⟩),
        ((1, 2), ⟨"B", false, false⟩), ((2, 2), ⟨"B", false, false⟩)] (1, 1) = some c1 ∧
      c1.permanently_revealed = true ∧ c1.revealed = true := by
  have h := c2_full_buffer_resolution
    { board_cells := [((1, 1), ⟨"A", true, false⟩), ((2, 1), ⟨"A", false, false⟩),
        ((1, 2), ⟨"B", false, false⟩), ((2, 2), ⟨"B", false, false⟩)],
      current_selection := [⟨(1, 1), "A"⟩], matched_values := [], match_count := 2,
      game_items := ["A", "A", "B", "B"], game_start_time := 0,
      board_size_x := 2, board_size_y := 2, bot_data := [] }
    "p" (2, 1) 0 ⟨"A", false, false⟩
    { board_cells := [((1, 1), ⟨"A", true, true⟩), ((2, 1), ⟨"A", true, true⟩),
        ((1, 2), ⟨"B", false, false⟩), ((2, 2), ⟨"B", false, false⟩)],
      current_selection := [], matched_values := ["A"], match_count := 2,
      game_items := ["A", "A", "B", "B"], game_start_time := 0,
      board_size_x := 2, board_size_y := 2, bot_data := [] }
    (Outcome.matchProgress "A")
    (by decide) (by decide) (by decide)
    (by
      intro s hs
      simp only [List.mem_singleton] at hs
      subst hs
      exact ⟨⟨"A", true, false⟩, by decide⟩)
    (by decide) (by decide)
  exact ⟨h.1, h.2.2.2.1 (by decide) ⟨(1, 1), "A"⟩ (by decide)⟩

/-! ### C3: win upgrade and the score ledger append -/

theorem getScores_setScores_self (bd : BotData) (k : String) (v : List ScoreEntry) :
    getScores (setScores bd k v) k = v := by
  induction bd with
  | nil => simp [setScores, getScores]
  | cons p rest ih =>
    obtain ⟨k0, w⟩ := p
    by_cases h : k0 = k
    · simp [setScores, getScores, h]
    · simp [setScores, getScores, h, ih]

theorem getScores_setScores_ne (bd : BotData) (k k2 : String) (v : List ScoreEntry)
    (h : k2 ≠ k) : getScores (setScores bd k v) k2 = getScores bd k2 := by
  induction bd with
  | nil =>
    simp only [setScores, getScores]
    rw [if_neg (Ne.symm h)]
  | cons p rest ih =>
    obtain ⟨k0, w⟩ := p
    by_cases hk : k0 = k
    · subst hk
      simp only [setScores, if_pos rfl, getScores]
      rw [if_neg (Ne.symm h), if_neg (Ne.symm h)]
    · simp only [setScores, if_neg hk, getScores]
      by_cases hk2 : k0 = k2
      · rw [if_pos hk2, if_pos hk2]
      · rw [if_neg hk2, if_neg hk2, ih]

/-- C3: a match upgrades to a Win exactly when the registry (after adding
the matched symbol) covers every distinct symbol on the board; the Win
carries now minus the session start time and performs exactly one score
ledger append under the configuration key; a non-completing match yields
MatchProgress with the matched symbol and leaves the ledger untouched. -/
theorem c3_win_upgrade_and_ledger (st : GameState) (user_name : String) (c : CellId)
    (now : ℚ) (cell : CellInfo) (st2 : GameState) (out : Outcome)
    (hc : getCell st.board_cells c = some cell)
    (hp : cell.permanently_revealed = false)
    (hns : ∀ s ∈ st.current_selection, s.id ≠ c)
    (hlen : st.current_selection.length + 1 = st.match_count)
    (hall : ∀ s ∈ st.current_selection, s.value = cell.value)
    (hperm : (st.board_cells.map (fun p => p.2.value)).Perm st.game_items)
    (htap : button_tap st user_name c now = (st2, out)) :
    (out = Outcome.win (now - st.game_start_time) ↔
      (if cell.value ∈ st.matched_values then st.matched_values
        else st.matched_values ++ [cell.value]).length =
      (st.board_cells.map (fun p => p.2.value)).dedup.length) ∧
    ((if cell.value ∈ st.matched_values then st.matched_values
        else st.matched_values ++ [cell.value]).length =
      (st.board_cells.map (fun p => p.2.value)).dedup.length →
      getScores st2.bot_data
          (score_config_key st.board_size_x st.board_size_y st.match_count) =
        record (getScores st.bot_data
            (score_config_key st.board_size_x st.board_size_y st.match_count))
          ⟨user_name, now - st.game_start_time⟩ ∧
      (∀ k, k ≠ score_config_key st.board_size_x st.board_size_y st.match_count →
        getScores st2.bot_data k = getScores st.bot_data k)) ∧
    ((if cell.value ∈ st.matched_values then st.matched_values
        else st.matched_values ++ [cell.value]).length ≠
      (st.board_cells.map (fun p => p.2.value)).dedup.length →
      out = Outcome.matchProgress cell.value ∧ st2.bot_data = st.bot_data) := by
  have h0 : (cell.permanently_revealed
      || st.current_selection.any (fun s => s.id == c)) = false := by
    rw [Bool.or_eq_false_iff]
    refine ⟨hp, ?_⟩
    rw [List.any_eq_false]
    intro s hs
    simpa using hns s hs
  have hmem : cell.value ∈
      (st.current_selection ++ [(⟨c, cell.value⟩ : SelectedItem)]).map
        (fun s => s.value) := by simp
  have hall1 : ∀ v ∈ (st.current_selection ++ [(⟨c, cell.value⟩ : SelectedItem)]).map
      (fun s => s.value), v = cell.value := by
    intro v hv
    obtain ⟨s, hs, rfl⟩ := List.mem_map.mp hv
    rcases List.mem_append.mp hs with h | h
    · exact hall s h
    · simp only [List.mem_singleton] at h
      rw [h]
  have hm : (((st.current_selection ++ [(⟨c, cell.value⟩ : SelectedItem)]).map
      (fun s => s.value)).dedup.length = 1) :=
    (dedup_length_eq_one_iff hmem).mpr hall1
  have hD : (st.board_cells.map (fun p => p.2.value)).dedup.length =
      st.game_items.dedup.length := hperm.dedup.length_eq
  have hhead : ((st.current_selection ++ [(⟨c, cell.value⟩ : SelectedItem)]).headD
      ⟨c, cell.value⟩).value = cell.value := by
    cases hsel0 : st.current_selection with
    | nil => simp
    | cons a rest =>
      simp only [List.cons_append, List.headD_cons]
      exact hall a (by rw [hsel0]; exact List.mem_cons_self a rest)
  unfold button_tap at htap
  rw [hc] at htap
  simp only [h0, Bool.false_eq_true, if_false] at htap
  rw [List.length_append, List.length_singleton, hlen, if_pos rfl, if_pos hm,
    hhead] at htap
  by_cases hwin : (if cell.value ∈ st.matched_values then st.matched_values
      else st.matched_values ++ [cell.value]).length = st.game_items.dedup.length
  · rw [if_pos hwin] at htap
    injection htap with h1 h2
    refine ⟨iff_of_true h2.symm (by rw [hD]; exact hwin), fun _ => ?_,
      fun hne => absurd (by rw [hD]; exact hwin) hne⟩
    rw [← h1]
    refine ⟨getScores_setScores_self _ _ _, fun k hk => getScores_setScores_ne _ _ _ _ hk⟩
  · rw [if_neg hwin] at htap
    injection htap with h1 h2
    refine ⟨iff_of_false (by rw [← h2]; simp) (by rw [hD]; exact hwin),
      fun heq => absurd (by rw [← hD]; exact heq) hwin, fun _ => ⟨h2.symm, by rw [← h1]⟩⟩

/-- Witness for C3 at a concrete 2x1 session whose single remaining pair is
matched: the tap wins and appends exactly one ledger entry. -/
theorem c3_win_upgrade_and_ledger_witness :
    ((button_tap
      { board_cells := [((1, 1), ⟨"A", true, false⟩), ((2, 1), ⟨"A", false, false⟩)],
        current_selection := [⟨(1, 1), "A"⟩], matched_values := [], match_count := 2,
        game_items := ["A", "A"], game_start_time := 0,
        board_size_x := 2, board_size_y := 1, bot_data := [] }
      "p" (2, 1) 0).2 = Outcome.win ((0 : ℚ) - 0) ↔
      (if "A" ∈ ([] : List String) then ([] : List String) else [] ++ ["A"]).length =
        ([((1, 1), (⟨"A", true, false⟩ : CellInfo)),
          ((2, 1), (⟨"A", false, false⟩ : CellInfo))].map
            (fun p => p.2.value)).dedup.length) ∧
    getScores (button_tap
      { board_cells := [((1, 1), ⟨"A", true, false⟩), ((2, 1), ⟨"A", false, false⟩)],
        current_selection := [⟨(1, 1), "A"⟩], matched_values := [], match_count := 2,
        game_items := ["A", "A"], game_start_time := 0,
        board_size_x := 2, board_size_y := 1, bot_data := [] }
      "p" (2, 1) 0).1.bot_data (score_config_key 2 1 2) =
      record (getScores [] (score_config_key 2 1 2)) ⟨"p", (0 : ℚ) - 0⟩ := by
  have h := c3_win_upgrade_and_ledger
    { board_cells := [((1, 1), ⟨"A", true, false⟩), ((2, 1), ⟨"A", false, false⟩)],
      current_selection := [⟨(1, 1), "A"⟩], matched_values := [], match_count := 2,
      game_items := ["A", "A"], game_start_time := 0,
      board_size_x := 2, board_size_y := 1, bot_data := [] }
    "p" (2, 1) 0 ⟨"A", false, false⟩ _ _
    (by decide) (by decide) (by decide) (by decide) (by decide) (by decide) rfl
  exact ⟨h.1, (h.2.1 (by decide)).1⟩

/-! ### The four possible state transitions of one tap -/

/-- The board after the tapped cell is marked revealed (step 1 of a tap). -/
def revealedBoard (b : BoardCells) (c : CellId) : BoardCells :=
  modifyCell b c (fun c0 => { c0 with revealed := true })

/-- The selection buffer after appending the tapped cell. -/
def sel1Of (st : GameState) (c : CellId) (cell : CellInfo) : List SelectedItem :=
  st.current_selection ++ [⟨c, cell.value⟩]

/-- The symbol reported for a resolved match: the first buffered value. -/
def matchedValueOf (st : GameState) (c : CellId) (cell : CellInfo) : String :=
  ((sel1Of st c cell).headD ⟨c, cell.value⟩).value

/-- The registry after a match: the matched symbol is appended unless
already present. -/
def matched1Of (st : GameState) (c : CellId) (cell : CellInfo) : List String :=
  if matchedValueOf st c cell ∈ st.matched_values then st.matched_values
  else st.matched_values ++ [matchedValueOf st c cell]

/-- The board after a match locks every buffered cell. -/
def lockedBoardOf (st : GameState) (c : CellId) (cell : CellInfo) : BoardCells :=
  (sel1Of st c cell).foldl
    (fun b s => modifyCell b s.id
      (fun c0 => { c0 with revealed := true, permanently_revealed := true }))
    (revealedBoard st.board_cells c)

/-- The board after a mismatch hides every buffered cell again. -/
def hiddenBoardOf (st : GameState) (c : CellId) (cell : CellInfo) : BoardCells :=
  (sel1Of st c cell).foldl
    (fun b s => modifyCell b s.id (fun c0 => { c0 with revealed := false }))
    (revealedBoard st.board_cells c)

/-- Every tap leaves the session in one of four shapes: untouched (ignored
tap), pending (buffer grew), matched (buffer cleared, registry extended,
cells locked), or mismatched (buffer cleared, cells hidden). -/
theorem button_tap_state_cases (st : GameState) (un : String) (c : CellId) (now : ℚ) :
    ((button_tap st un c now).1 = st ∧ (button_tap st un c now).2 = Outcome.ignored) ∨
    ∃ cell, getCell st.board_cells c = some cell ∧ cell.permanently_revealed = false ∧
      (∀ s ∈ st.current_selection, s.id ≠ c) ∧
      (((button_tap st un c now).1 = { st with
          board_cells := revealedBoard st.board_cells c,
          current_selection := sel1Of st c cell } ∧
        (button_tap st un c now).2 = Outcome.pending ∧
        st.current_selection.length + 1 ≠ st.match_count) ∨
       (st.current_selection.length + 1 = st.match_count ∧
        ((∃ bd2, (button_tap st un c now).1 = { st with
            board_cells := lockedBoardOf st c cell,
            current_selection := [],
            matched_values := matched1Of st c cell,
            bot_data := bd2 } ∧
          ((button_tap st un c now).2 =
              Outcome.matchProgress (matchedValueOf st c cell) ∨
            (button_tap st un c now).2 = Outcome.win (now - st.game_start_time))) ∨
         ((button_tap st un c now).1 = { st with
            board_cells := hiddenBoardOf st c cell,
            current_selection := [] } ∧
          (button_tap st un c now).2 = Outcome.mismatch)))) := by
  cases hc : getCell st.board_cells c with
  | none =>
    left
    have heq : button_tap st un c now = (st, Outcome.ignored) := by
      unfold button_tap
      rw [hc]
    rw [heq]
    exact ⟨rfl, rfl⟩
  | some cell =>
    by_cases hcond : (cell.permanently_revealed
        || st.current_selection.any (fun s => s.id == c)) = true
    · left
      have heq : button_tap st un c now = (st, Outcome.ignored) := by
        unfold button_tap
        rw [hc]
        simp only [hcond, if_true]
      rw [heq]
      exact ⟨rfl, rfl⟩
    · have hcond0 : (cell.permanently_revealed
          || st.current_selection.any (fun s => s.id == c)) = false :=
        Bool.eq_false_iff.mpr hcond
      obtain ⟨hp, hany⟩ := Bool.or_eq_false_iff.mp hcond0
      have hns : ∀ s ∈ st.current_selection, s.id ≠ c := by
        intro s hs
        have := List.any_eq_false.mp hany s hs
        simpa using this
      right
      refine ⟨cell, rfl, hp, hns, ?_⟩
      have htap0 : button_tap st un c now =
          (if (st.current_selection ++ [(⟨c, cell.value⟩ : SelectedItem)]).length =
              st.match_count then
            if ((st.current_selection ++ [(⟨c, cell.value⟩ : SelectedItem)]).map
                (fun s => s.value)).dedup.length = 1 then
              if (matched1Of st c cell).length = st.game_items.dedup.length then
                ({ st with
                    board_cells := lockedBoardOf st c cell
                    current_selection := []
                    matched_values := matched1Of st c cell
                    bot_data := setScores st.bot_data
                      (score_config_key st.board_size_x st.board_size_y st.match_count)
                      (record (getScores st.bot_data
                          (score_config_key st.board_size_x st.board_size_y st.match_count))
                        ⟨un, now - st.game_start_time⟩) },
                  Outcome.win (now - st.game_start_time))
              else
                ({ st with
                    board_cells := lockedBoardOf st c cell
                    current_selection := []
                    matched_values := matched1Of st c cell },
                  Outcome.matchProgress (matchedValueOf st c cell))
            else
              ({ st with
                  board_cells := hiddenBoardOf st c cell
                  current_selection := [] },
                Outcome.mismatch)
          else
            ({ st with
                board_cells := revealedBoard st.board_cells c
                current_selection := sel1Of st c cell },
              Outcome.pending)) := by
        unfold button_tap
        rw [hc]
        simp only [hcond0, Bool.false_eq_true, if_false]
        rfl
      rw [htap0]
      by_cases hfull : (st.current_selection ++
          [(⟨c, cell.value⟩ : SelectedItem)]).length = st.match_count
      · rw [if_pos hfull]
        have hfull2 : st.current_selection.length + 1 = st.match_count := by
          simpa using hfull
        right
        refine ⟨hfull2, ?_⟩
        by_cases hm : ((st.current_selection ++ [(⟨c, cell.value⟩ : SelectedItem)]).map
            (fun s => s.value)).dedup.length = 1
        · rw [if_pos hm]
          left
          by_cases hwin : (matched1Of st c cell).length = st.game_items.dedup.length
          · rw [if_pos hwin]
            exact ⟨_, rfl, Or.inr rfl⟩
          · rw [if_neg hwin]
            exact ⟨_, rfl, Or.inl rfl⟩
        · rw [if_neg hm]
          right
          exact ⟨rfl, rfl⟩
      · rw [if_neg hfull]
        left
        refine ⟨rfl, rfl, ?_⟩
        simpa using hfull

/-! ### Session invariants -/

/-- The selection-buffer invariant: the buffer is strictly below group size
between taps, holds no coordinate twice, and holds no locked cell. -/
def SessionInv (st : GameState) : Prop :=
  0 < st.match_count ∧
  st.current_selection.length < st.match_count ∧
  (st.current_selection.map (fun s => s.id)).Nodup ∧
  (∀ s ∈ st.current_selection, ∀ c0, getCell st.board_cells s.id = some c0 →
    c0.permanently_revealed = false)

/-- The symbol-bookkeeping invariant: the registry is duplicate-free and
every registry, board and buffer symbol comes from game_items. -/
def ValueInv (st : GameState) : Prop :=
  st.matched_values.Nodup ∧
  (∀ v ∈ st.matched_values, v ∈ st.game_items) ∧
  (∀ v ∈ st.board_cells.map (fun p => p.2.value), v ∈ st.game_items) ∧
  (∀ s ∈ st.current_selection, s.value ∈ st.game_items)

theorem button_tap_preserves_static (st : GameState) (un : String) (c : CellId)
    (now : ℚ) :
    (button_tap st un c now).1.match_count = st.match_count ∧
    (button_tap st un c now).1.game_items = st.game_items := by
  rcases button_tap_state_cases st un c now with ⟨heq, _⟩ |
    ⟨cell, hc, hp, hns, ⟨heq, _, _⟩ | ⟨_, ⟨bd2, heq, _⟩ | ⟨heq, _⟩⟩⟩ <;> rw [heq] <;>
    exact ⟨rfl, rfl⟩

theorem boardValues_button_tap (st : GameState) (un : String) (c : CellId) (now : ℚ) :
    (button_tap st un c now).1.board_cells.map (fun p => p.2.value) =
      st.board_cells.map (fun p => p.2.value) := by
  rcases button_tap_state_cases st un c now with ⟨heq, _⟩ |
    ⟨cell, hc, hp, hns, ⟨heq, _, _⟩ | ⟨_, ⟨bd2, heq, _⟩ | ⟨heq, _⟩⟩⟩ <;> rw [heq]
  · show (revealedBoard st.board_cells c).map (fun p => p.2.value) = _
    rw [revealedBoard]
    exact boardValues_modifyCell _ _ (fun c0 => { c0 with revealed := true })
      (fun c0 => rfl)
  · show (lockedBoardOf st c cell).map (fun p => p.2.value) = _
    rw [lockedBoardOf, boardValues_foldl_modifyCell _ _
      (fun c0 => { c0 with revealed := true, permanently_revealed := true })
      (fun c0 => rfl), revealedBoard]
    exact boardValues_modifyCell _ _ (fun c0 => { c0 with revealed := true })
      (fun c0 => rfl)
  · show (hiddenBoardOf st c cell).map (fun p => p.2.value) = _
    rw [hiddenBoardOf, boardValues_foldl_modifyCell _ _
      (fun c0 => { c0 with revealed := false })
      (fun c0 => rfl), revealedBoard]
    exact boardValues_modifyCell _ _ (fun c0 => { c0 with revealed := true })
      (fun c0 => rfl)

theorem matched_button_tap (st : GameState) (un : String) (c : CellId) (now : ℚ) :
    (button_tap st un c now).1.matched_values = st.matched_values ∨
    ∃ cell, getCell st.board_cells c = some cell ∧
      matchedValueOf st c cell ∉ st.matched_values ∧
      (button_tap st un c now).1.matched_values =
        st.matched_values ++ [matchedValueOf st c cell] := by
  rcases button_tap_state_cases st un c now with ⟨heq, _⟩ |
    ⟨cell, hc, hp, hns, ⟨heq, _, _⟩ | ⟨_, ⟨bd2, heq, _⟩ | ⟨heq, _⟩⟩⟩
  · rw [heq]
    left
    rfl
  · rw [heq]
    left
    rfl
  · rw [heq]
    show matched1Of st c cell = _ ∨ _
    rw [matched1Of]
    by_cases hmem : matchedValueOf st c cell ∈ st.matched_values
    · left
      rw [if_pos hmem]
    · right
      exact ⟨cell, hc, hmem, by rw [if_neg hmem]⟩
  · rw [heq]
    left
    rfl

theorem locked_mono_button_tap (st : GameState) (un : String) (c : CellId) (now : ℚ)
    (i : CellId) (cc : CellInfo)
    (hi : getCell st.board_cells i = some cc) (hcc : cc.permanently_revealed = true) :
    ∃ cc2, getCell (button_tap st un c now).1.board_cells i = some cc2 ∧
      cc2.permanently_revealed = true := by
  rcases button_tap_state_cases st un c now with ⟨heq, _⟩ |
    ⟨cell, hc, hp, hns, ⟨heq, _, _⟩ | ⟨_, ⟨bd2, heq, _⟩ | ⟨heq, _⟩⟩⟩
  · rw [heq]
    exact ⟨cc, hi, hcc⟩
  · rw [heq]
    show ∃ cc2, getCell (revealedBoard st.board_cells c) i = some cc2 ∧ _
    rw [revealedBoard, getCell_modifyCell]
    by_cases hic : i = c
    · rw [hic] at hi
      rw [hi] at hc
      rw [← Option.some_inj.mp hc] at hp
      rw [hp] at hcc
      exact absurd hcc (by simp)
    · rw [if_neg hic, hi]
      exact ⟨cc, rfl, hcc⟩
  · rw [heq]
    show ∃ cc2, getCell (lockedBoardOf st c cell) i = some cc2 ∧ _
    rw [lockedBoardOf, getCell_foldl_modifyCell _ _
      (fun c0 => { c0 with revealed := true, permanently_revealed := true })
      (fun c0 => rfl) i]
    by_cases hex : ∃ s ∈ sel1Of st c cell, s.id = i
    · rw [if_pos hex, revealedBoard, getCell_modifyCell]
      by_cases hic : i = c
      · rw [if_pos hic, hic, hc]
        exact ⟨_, rfl, rfl⟩
      · rw [if_neg hic, hi]
        exact ⟨_, rfl, rfl⟩
    · rw [if_neg hex, revealedBoard, getCell_modifyCell]
      by_cases hic : i = c
      · rw [hic] at hi
        rw [hi] at hc
        rw [← Option.some_inj.mp hc] at hp
        rw [hp] at hcc
        exact absurd hcc (by simp)
      · rw [if_neg hic, hi]
        exact ⟨cc, rfl, hcc⟩
  · rw [heq]
    show ∃ cc2, getCell (hiddenBoardOf st c cell) i = some cc2 ∧ _
    rw [hiddenBoardOf, getCell_foldl_modifyCell _ _
      (fun c0 => { c0 with revealed := false })
      (fun c0 => rfl) i]
    by_cases hex : ∃ s ∈ sel1Of st c cell, s.id = i
    · rw [if_pos hex, revealedBoard, getCell_modifyCell]
      by_cases hic : i = c
      · rw [hic] at hi
        rw [hi] at hc
        rw [← Option.some_inj.mp hc] at hp
        rw [hp] at hcc
        exact absurd hcc (by simp)
      · rw [if_neg hic, hi]
        exact ⟨_, rfl, hcc⟩
    · rw [if_neg hex, revealedBoard, getCell_modifyCell]
      by_cases hic : i = c
      · rw [hic] at hi
        rw [hi] at hc
        rw [← Option.some_inj.mp hc] at hp
        rw [hp] at hcc
        exact absurd hcc (by simp)
      · rw [if_neg hic, hi]
        exact ⟨cc, rfl, hcc⟩

theorem sessionInv_button_tap (st : GameState) (un : String) (c : CellId) (now : ℚ)
    (h : SessionInv st) : SessionInv (button_tap st un c now).1 := by
  obtain ⟨hmc, hlt, hnd, hlock⟩ := h
  rcases button_tap_state_cases st un c now with ⟨heq, _⟩ |
    ⟨cell, hc, hp, hns, ⟨heq, _, hne⟩ | ⟨_, ⟨bd2, heq, _⟩ | ⟨heq, _⟩⟩⟩ <;> rw [heq]
  · exact ⟨hmc, hlt, hnd, hlock⟩
  · refine ⟨hmc, ?_, ?_, ?_⟩
    · show (sel1Of st c cell).length < st.match_count
      rw [sel1Of, List.length_append, List.length_singleton]
      omega
    · show ((sel1Of st c cell).map (fun s => s.id)).Nodup
      rw [sel1Of, List.map_append]
      refine List.Nodup.append hnd (by simp) ?_
      intro a ha hb
      simp only [List.map_cons, List.map_nil, List.mem_singleton] at hb
      obtain ⟨s, hs, rfl⟩ := List.mem_map.mp ha
      exact hns s hs hb
    · show ∀ s ∈ sel1Of st c cell,
        ∀ c0, getCell (revealedBoard st.board_cells c) s.id = some c0 →
          c0.permanently_revealed = false
      intro s hs c0 hc0
      rw [revealedBoard, getCell_modifyCell] at hc0
      by_cases hsc : s.id = c
      · rw [if_pos hsc, hsc, hc] at hc0
        simp only [Option.map_some'] at hc0
        rw [← Option.some_inj.mp hc0]
        exact hp
      · rw [if_neg hsc] at hc0
        have hs0 : s ∈ st.current_selection := by
          rcases List.mem_append.mp hs with h1 | h1
          · exact h1
          · simp only [List.mem_singleton] at h1
            rw [h1] at hsc
            exact absurd rfl hsc
        exact hlock s hs0 c0 hc0
  · exact ⟨hmc, by simpa using hmc, by simp, by intro s hs; simp at hs⟩
  · exact ⟨hmc, by simpa using hmc, by simp, by intro s hs; simp at hs⟩

theorem headD_sel1Of_mem_game_items (st : GameState) (c : CellId) (cell : CellInfo)
    (hc : getCell st.board_cells c = some cell)
    (hb : ∀ v ∈ st.board_cells.map (fun p => p.2.value), v ∈ st.game_items)
    (hs : ∀ s ∈ st.current_selection, s.value ∈ st.game_items) :
    matchedValueOf st c cell ∈ st.game_items := by
  rw [matchedValueOf, sel1Of]
  cases hsel : st.current_selection with
  | nil =>
    simp only [List.nil_append, List.headD_cons]
    exact hb cell.value (getCell_some_value_mem _ _ _ hc)
  | cons a rest =>
    simp only [List.cons_append, List.headD_cons]
    exact hs a (by rw [hsel]; exact List.mem_cons_self a rest)

theorem valueInv_button_tap (st : GameState) (un : String) (c : CellId) (now : ℚ)
    (h : ValueInv st) : ValueInv (button_tap st un c now).1 := by
  obtain ⟨hnd, hmg, hbg, hsg⟩ := h
  have hbv := boardValues_button_tap st un c now
  rcases button_tap_state_cases st un c now with ⟨heq, _⟩ |
    ⟨cell, hc, hp, hns, ⟨heq, _, hne⟩ | ⟨_, ⟨bd2, heq, _⟩ | ⟨heq, _⟩⟩⟩ <;> rw [heq] at hbv ⊢
  · exact ⟨hnd, hmg, hbg, hsg⟩
  · refine ⟨hnd, hmg, ?_, ?_⟩
    · intro v hv
      rw [hbv] at hv
      exact hbg v hv
    · show ∀ s ∈ sel1Of st c cell, s.value ∈ st.game_items
      intro s hs
      rcases List.mem_append.mp hs with h1 | h1
      · exact hsg s h1
      · simp only [List.mem_singleton] at h1
        rw [h1]
        exact hbg cell.value (getCell_some_value_mem _ _ _ hc)
  · have hmv : matchedValueOf st c cell ∈ st.game_items :=
      headD_sel1Of_mem_game_items st c cell hc hbg hsg
    refine ⟨?_, ?_, ?_, by intro s hs; simp at hs⟩
    · show (matched1Of st c cell).Nodup
      rw [matched1Of]
      by_cases hmem : matchedValueOf st c cell ∈ st.matched_values
      · rw [if_pos hmem]
        exact hnd
      · rw [if_neg hmem]
        simp [List.nodup_append, hnd, hmem]
    · show ∀ v ∈ matched1Of st c cell, v ∈ st.game_items
      rw [matched1Of]
      by_cases hmem : matchedValueOf st c cell ∈ st.matched_values
      · rw [if_pos hmem]
        exact hmg
      · rw [if_neg hmem]
        intro v hv
        rcases List.mem_append.mp hv with h1 | h1
        · exact hmg v h1
        · simp only [List.mem_singleton] at h1
          rw [h1]
          exact hmv
    · intro v hv
      rw [hbv] at hv
      exact hbg v hv
  · refine ⟨hnd, hmg, ?_, by intro s hs; simp at hs⟩
    intro v hv
    rw [hbv] at hv
    exact hbg v hv

theorem matched_length_le_dedup (st : GameState) (h : ValueInv st) :
    st.matched_values.length ≤ st.game_items.dedup.length := by
  obtain ⟨hnd, hmg, _, _⟩ := h
  have h1 : st.matched_values.toFinset.card = st.matched_values.length :=
    List.toFinset_card_of_nodup hnd
  have h2 : st.matched_values.toFinset ⊆ st.game_items.toFinset := by
    intro a ha
    rw [List.mem_toFinset] at ha ⊢
    exact hmg a ha
  have h3 := Finset.card_le_card h2
  rw [h1, List.card_toFinset] at h3
  exact h3

theorem matched_full_stable (st : GameState) (un : String) (c : CellId) (now : ℚ)
    (h : ValueInv st)
    (hfull : st.matched_values.length = st.game_items.dedup.length) :
    (button_tap st un c now).1.matched_values = st.matched_values := by
  obtain ⟨hnd, hmg, hbg, hsg⟩ := h
  rcases matched_button_tap st un c now with heq | ⟨cell, hc, hnotin, heq⟩
  · exact heq
  · exfalso
    have hmv : matchedValueOf st c cell ∈ st.game_items :=
      headD_sel1Of_mem_game_items st c cell hc hbg hsg
    have h1 : st.matched_values.toFinset.card = st.matched_values.length :=
      List.toFinset_card_of_nodup hnd
    have h2 : st.matched_values.toFinset ⊆ st.game_items.toFinset := by
      intro a ha
      rw [List.mem_toFinset] at ha ⊢
      exact hmg a ha
    have h3 : st.matched_values.toFinset = st.game_items.toFinset := by
      apply Finset.eq_of_subset_of_card_le h2
      rw [h1, hfull, List.card_toFinset]
    have : matchedValueOf st c cell ∈ st.matched_values := by
      rw [← List.mem_toFinset, h3, List.mem_toFinset]
      exact hmv
    exact hnotin this

theorem applyTaps_preserves (P : GameState → Prop)
    (hstep : ∀ st un c now, P st → P (button_tap st un c now).1) :
    ∀ (taps : List TapEvent) (st : GameState), P st → P (applyTaps st taps) := by
  intro taps
  induction taps with
  | nil => intro st h; exact h
  | cons t rest ih =>
    intro st h
    show P (List.foldl _ _ (t :: rest))
    rw [List.foldl_cons]
    exact ih _ (hstep st t.user_name t.cell t.now h)

theorem get_initial_board_state_some (x y mc : Nat)
    (shuffle : List String → List String) (items : List String) (board : BoardCells)
    (h : get_initial_board_state x y mc shuffle = some (items, board)) :
    board = ((cellIds x y).zip items).map (fun p => (p.1, ⟨p.2, false, false⟩)) ∧
    (cellIds x y).length ≤ items.length ∧
    generate_dynamic_items x y mc shuffle = some items := by
  unfold get_initial_board_state at h
  cases hg : generate_dynamic_items x y mc shuffle with
  | none => rw [hg] at h; simp at h
  | some its =>
    rw [hg] at h
    simp only [] at h
    by_cases hlen : (cellIds x y).length ≤ its.length
    · rw [if_pos hlen] at h
      have h2 := Option.some_inj.mp h
      injection h2 with ha hb
      subst ha
      subst hb
      exact ⟨rfl, hlen, rfl⟩
    · rw [if_neg hlen] at h
      simp at h

theorem choose_match_count_started_inv (x y : Nat) (input : String) (bd : BotData)
    (t : ℚ) (shuffle : List String → List String) (st : GameState)
    (h : choose_match_count x y input bd t shuffle = .started st) :
    SessionInv st ∧ ValueInv st ∧ 1 < st.match_count ∧
    st.current_selection = [] ∧ st.matched_values = [] := by
  unfold choose_match_count at h
  cases hpi : parseInt input with
  | none => rw [hpi] at h; simp at h
  | some m =>
    rw [hpi] at h
    simp only [] at h
    by_cases h1 : ¬(1 < m ∧ m ≤ ((x * y : Nat) : Int))
    · rw [if_pos h1] at h; simp at h
    · rw [if_neg h1] at h
      rw [not_not] at h1
      by_cases h2 : x * y % m.toNat ≠ 0
      · rw [if_pos h2] at h; simp at h
      · rw [if_neg h2] at h
        by_cases h3 : x * y / m.toNat ≤ 1 ∧ 1 < x * y
        · rw [if_pos h3] at h; simp at h
        · rw [if_neg h3] at h
          by_cases h4 : EMOJI_POOL.length < x * y / m.toNat
          · rw [if_pos h4] at h; simp at h
          · rw [if_neg h4] at h
            cases hg : get_initial_board_state x y m.toNat shuffle with
            | none => rw [hg] at h; simp at h
            | some p =>
              obtain ⟨items, board⟩ := p
              rw [hg] at h
              simp only [] at h
              injection h with hst
              obtain ⟨hboard, hlen, _⟩ :=
                get_initial_board_state_some x y m.toNat shuffle items board hg
              have hmc : 1 < m.toNat := by omega
              have hbsub : ∀ v ∈ board.map (fun p => p.2.value), v ∈ items := by
                intro v hv
                rw [hboard] at hv
                simp only [List.map_map, List.mem_map] at hv
                obtain ⟨q, hq, hqv⟩ := hv
                have := (List.of_mem_zip hq).2
                simp only [Function.comp] at hqv
                rw [← hqv]
                exact this
              rw [← hst]
              refine ⟨⟨?_, ?_, by simp, by intro s hs; simp at hs⟩,
                ⟨by simp, by intro v hv; simp at hv, hbsub,
                  by intro s hs; simp at hs⟩,
                hmc, rfl, rfl⟩
              · show 0 < m.toNat
                omega
              · show ([] : List SelectedItem).length < m.toNat
                simp only [List.length_nil]
                omega

theorem button_tap_resolution_clears (st : GameState) (un : String) (c : CellId)
    (now : ℚ)
    (h : (button_tap st un c now).2 = Outcome.mismatch ∨
      (∃ v, (button_tap st un c now).2 = Outcome.matchProgress v) ∨
      (∃ e, (button_tap st un c now).2 = Outcome.win e)) :
    (button_tap st un c now).1.current_selection = [] := by
  rcases button_tap_state_cases st un c now with ⟨heq, hout⟩ |
    ⟨cell, hc, hp, hns, ⟨heq, hout, _⟩ | ⟨_, ⟨bd2, heq, _⟩ | ⟨heq, _⟩⟩⟩
  · rw [hout] at h
    rcases h with h | ⟨v, h⟩ | ⟨e, h⟩ <;> simp at h
  · rw [hout] at h
    rcases h with h | ⟨v, h⟩ | ⟨e, h⟩ <;> simp at h
  · rw [heq]
  · rw [heq]

/-! ### C4: the selection-buffer invariants hold at every reachable state -/

/-- C4: in any session produced by the negotiator, after any sequence of
taps the selection buffer holds at most group_size entries, contains no
coordinate twice and no locked cell, and is emptied by every tap that
resolves a match or mismatch. -/
theorem c4_selection_buffer_invariants (x y : Nat) (input : String) (bd : BotData)
    (t : ℚ) (shuffle : List String → List String) (st : GameState)
    (taps : List TapEvent) (un : String) (c : CellId) (now : ℚ)
    (hstart : choose_match_count x y input bd t shuffle = .started st) :
    (applyTaps st taps).current_selection.length ≤ (applyTaps st taps).match_count ∧
    ((applyTaps st taps).current_selection.map (fun s => s.id)).Nodup ∧
    (∀ s ∈ (applyTaps st taps).current_selection,
      ∀ c0, getCell (applyTaps st taps).board_cells s.id = some c0 →
        c0.permanently_revealed = false) ∧
    st.current_selection = [] ∧
    (((button_tap (applyTaps st taps) un c now).2 = Outcome.mismatch ∨
      (∃ v, (button_tap (applyTaps st taps) un c now).2 = Outcome.matchProgress v) ∨
      (∃ e, (button_tap (applyTaps st taps) un c now).2 = Outcome.win e)) →
      (button_tap (applyTaps st taps) un c now).1.current_selection = []) := by
  obtain ⟨hsi, _, _, hsel0, _⟩ :=
    choose_match_count_started_inv x y input bd t shuffle st hstart
  have hinvN : SessionInv (applyTaps st taps) :=
    applyTaps_preserves SessionInv sessionInv_button_tap taps st hsi
  obtain ⟨hmc, hlt, hnd, hlock⟩ := hinvN
  exact ⟨le_of_lt hlt, hnd, hlock, hsel0,
    button_tap_resolution_clears (applyTaps st taps) un c now⟩


/-- Witness for C4: the freshly negotiated 2x2 session, after one tap, keeps
the buffer within bounds and free of duplicate coordinates. -/
theorem c4_selection_buffer_invariants_witness :
    (applyTaps
      { board_cells := [((1, 1), ⟨"ğŸ“", false, false⟩), ((2, 1), ⟨"ğŸ“", false, false⟩),
          ((1, 2), ⟨"ğŸŒ", false, false⟩), ((2, 2), ⟨"ğŸŒ", false, false⟩)],
        current_selection := [], matched_values := [], match_count := 2,
        game_items := ["ğŸ“", "ğŸ“", "ğŸŒ", "ğŸŒ"], game_start_time := 0,
        board_size_x := 2, board_size_y := 2, bot_data := [] }
      [⟨"p", (1, 1), 0⟩]).current_selection.length ≤
    (applyTaps
      { board_cells := [((1, 1), ⟨"ğŸ“", false, false⟩), ((2, 1), ⟨"ğŸ“", false, false⟩),
          ((1, 2), ⟨"ğŸŒ", false, false⟩), ((2, 2), ⟨"ğŸŒ", false, false⟩)],
        current_selection := [], matched_values := [], match_count := 2,
        game_items := ["ğŸ“", "ğŸ“", "ğŸŒ", "ğŸŒ"], game_start_time := 0,
        board_size_x := 2, board_size_y := 2, bot_data := [] }
      [⟨"p", (1, 1), 0⟩]).match_count ∧
    ((applyTaps
      { board_cells := [((1, 1), ⟨"ğŸ“", false, false⟩), ((2, 1), ⟨"ğŸ“", false, false⟩),
          ((1, 2), ⟨"ğŸŒ", false, false⟩), ((2, 2), ⟨"ğŸŒ", false, false⟩)],
        current_selection := [], matched_values := [], match_count := 2,
        game_items := ["ğŸ“", "ğŸ“", "ğŸŒ", "ğŸŒ"], game_start_time := 0,
        board_size_x := 2, board_size_y := 2, bot_data := [] }
      [⟨"p", (1, 1), 0⟩]).current_selection.map (fun s => s.id)).Nodup := by
  have h := c4_selection_buffer_invariants 2 2 "2" [] 0 id
    { board_cells := [((1, 1), ⟨"ğŸ“", false, false⟩), ((2, 1), ⟨"ğŸ“", false, false⟩),
          ((1, 2), ⟨"ğŸŒ", false, false⟩), ((2, 2), ⟨"ğŸŒ", false, false⟩)],
        current_selection := [], matched_values := [], match_count := 2,
        game_items := ["ğŸ“", "ğŸ“", "ğŸŒ", "ğŸŒ"], game_start_time := 0,
        board_size_x := 2, board_size_y := 2, bot_data := [] }
    [⟨"p", (1, 1), 0⟩] "p" (2, 1) 0 (by decide)
  exact ⟨h.1, h.2.1⟩

/-! ### C9: lock and registry monotonicity -/

/-- C9: once a cell is locked it stays locked through any further taps, the
matched-set registry never shrinks and never exceeds the distinct-symbol
count, and once the registry is full no sequence of taps changes it. -/
theorem c9_lock_and_registry_monotonicity (st : GameState) (taps : List TapEvent)
    (hv : ValueInv st) :
    (∀ i cc, getCell st.board_cells i = some cc → cc.permanently_revealed = true →
      ∃ cc2, getCell (applyTaps st taps).board_cells i = some cc2 ∧
        cc2.permanently_revealed = true) ∧
    st.matched_values.length ≤ (applyTaps st taps).matched_values.length ∧
    (applyTaps st taps).matched_values.length ≤ st.game_items.dedup.length ∧
    (st.matched_values.length = st.game_items.dedup.length →
      (applyTaps st taps).matched_values = st.matched_values) := by
  refine ⟨?_, ?_, ?_, ?_⟩
  · intro i cc hi hcc
    exact applyTaps_preserves
      (fun s => ∃ cc2, getCell s.board_cells i = some cc2 ∧
        cc2.permanently_revealed = true)
      (fun s un c now h => by
        obtain ⟨cc2, h1, h2⟩ := h
        exact locked_mono_button_tap s un c now i cc2 h1 h2)
      taps st ⟨cc, hi, hcc⟩
  · exact applyTaps_preserves
      (fun s => st.matched_values.length ≤ s.matched_values.length)
      (fun s un c now hle => by
        rcases matched_button_tap s un c now with heq | ⟨cell, _, _, heq⟩
        · rw [heq]
          exact hle
        · rw [heq, List.length_append]
          omega)
      taps st (le_refl _)
  · have h := applyTaps_preserves
      (fun s => ValueInv s ∧ s.game_items = st.game_items)
      (fun s un c now h => by
        obtain ⟨h1, h2⟩ := h
        refine ⟨valueInv_button_tap s un c now h1, ?_⟩
        rw [(button_tap_preserves_static s un c now).2]
        exact h2)
      taps st ⟨hv, rfl⟩
    have h2 := matched_length_le_dedup _ h.1
    rw [h.2] at h2
    exact h2
  · intro hfull
    have h := applyTaps_preserves
      (fun s => ValueInv s ∧ s.game_items = st.game_items ∧
        s.matched_values = st.matched_values)
      (fun s un c now h => by
        obtain ⟨h1, h2, h3⟩ := h
        refine ⟨valueInv_button_tap s un c now h1, ?_, ?_⟩
        · rw [(button_tap_preserves_static s un c now).2]
          exact h2
        · rw [matched_full_stable s un c now h1 (by rw [h3, h2]; exact hfull)]
          exact h3)
      taps st ⟨hv, rfl, rfl⟩
    exact h.2.2


/-- Witness for C9: in a half-completed 2x2 session the registry never
shrinks and never exceeds the two distinct symbols, across two more taps. -/
theorem c9_lock_and_registry_monotonicity_witness :
    ({ board_cells := [((1, 1), ⟨"ğŸ“", true, true⟩), ((2, 1), ⟨"ğŸ“", true, true⟩), ((1, 2), ⟨"ğŸŒ", false, false⟩), ((2, 2), ⟨"ğŸŒ", false, false⟩)], current_selection := [], matched_values := ["ğŸ“"], match_count := 2, game_items := ["ğŸ“", "ğŸ“", "ğŸŒ", "ğŸŒ"], game_start_time := 0, board_size_x := 2, board_size_y := 2, bot_data := [] } : GameState).matched_values.length ≤
      (applyTaps { board_cells := [((1, 1), ⟨"ğŸ“", true, true⟩), ((2, 1), ⟨"ğŸ“", true, true⟩), ((1, 2), ⟨"ğŸŒ", false, false⟩), ((2, 2), ⟨"ğŸŒ", false, false⟩)], current_selection := [], matched_values := ["ğŸ“"], match_count := 2, game_items := ["ğŸ“", "ğŸ“", "ğŸŒ", "ğŸŒ"], game_start_time := 0, board_size_x := 2, board_size_y := 2, bot_data := [] } [⟨"p", (1, 2), 0⟩, ⟨"p", (2, 2), 0⟩]).matched_values.length ∧
    (applyTaps { board_cells := [((1, 1), ⟨"ğŸ“", true, true⟩), ((2, 1), ⟨"ğŸ“", true, true⟩), ((1, 2), ⟨"ğŸŒ", false, false⟩), ((2, 2), ⟨"ğŸŒ", false, false⟩)], current_selection := [], matched_values := ["ğŸ“"], match_count := 2, game_items := ["ğŸ“", "ğŸ“", "ğŸŒ", "ğŸŒ"], game_start_time := 0, board_size_x := 2, board_size_y := 2, bot_data := [] } [⟨"p", (1, 2), 0⟩, ⟨"p", (2, 2), 0⟩]).matched_values.length ≤
      ({ board_cells := [((1, 1), ⟨"ğŸ“", true, true⟩), ((2, 1), ⟨"ğŸ“", true, true⟩), ((1, 2), ⟨"ğŸŒ", false, false⟩), ((2, 2), ⟨"ğŸŒ", false, false⟩)], current_selection := [], matched_values := ["ğŸ“"], match_count := 2, game_items := ["ğŸ“", "ğŸ“", "ğŸŒ", "ğŸŒ"], game_start_time := 0, board_size_x := 2, board_size_y := 2, bot_data := [] } : GameState).game_items.dedup.length := by
  have h := c9_lock_and_registry_monotonicity
    { board_cells := [((1, 1), ⟨"ğŸ“", true, true⟩), ((2, 1), ⟨"ğŸ“", true, true⟩), ((1, 2), ⟨"ğŸŒ", false, false⟩), ((2, 2), ⟨"ğŸŒ", false, false⟩)], current_selection := [], matched_values := ["ğŸ“"], match_count := 2, game_items := ["ğŸ“", "ğŸ“", "ğŸŒ", "ğŸŒ"], game_start_time := 0, board_size_x := 2, board_size_y := 2, bot_data := [] }
    [⟨"p", (1, 2), 0⟩, ⟨"p", (2, 2), 0⟩]
    ⟨by decide, by decide, by decide, by decide⟩
  exact ⟨h.2.1, h.2.2.1⟩

/-- Witness for C5: tapping an already-locked cell is ignored twice over. -/
theorem c5_invalid_taps_silently_absorbed_witness :
    button_tap { board_cells := [((1, 1), ⟨"A", true, true⟩), ((2, 1), ⟨"A", false, false⟩)], current_selection := [], matched_values := ["A"], match_count := 2, game_items := ["A", "A"], game_start_time := 0, board_size_x := 2, board_size_y := 1, bot_data := [] } "p" (1, 1) 0 =
      ({ board_cells := [((1, 1), ⟨"A", true, true⟩), ((2, 1), ⟨"A", false, false⟩)], current_selection := [], matched_values := ["A"], match_count := 2, game_items := ["A", "A"], game_start_time := 0, board_size_x := 2, board_size_y := 1, bot_data := [] }, Outcome.ignored) ∧
    button_tap (button_tap { board_cells := [((1, 1), ⟨"A", true, true⟩), ((2, 1), ⟨"A", false, false⟩)], current_selection := [], matched_values := ["A"], match_count := 2, game_items := ["A", "A"], game_start_time := 0, board_size_x := 2, board_size_y := 1, bot_data := [] } "p" (1, 1) 0).1 "p" (1, 1) 7 =
      ({ board_cells := [((1, 1), ⟨"A", true, true⟩), ((2, 1), ⟨"A", false, false⟩)], current_selection := [], matched_values := ["A"], match_count := 2, game_items := ["A", "A"], game_start_time := 0, board_size_x := 2, board_size_y := 1, bot_data := [] }, Outcome.ignored) :=
  c5_invalid_taps_silently_absorbed
    { board_cells := [((1, 1), ⟨"A", true, true⟩), ((2, 1), ⟨"A", false, false⟩)], current_selection := [], matched_values := ["A"], match_count := 2, game_items := ["A", "A"], game_start_time := 0, board_size_x := 2, board_size_y := 1, bot_data := [] }
    "p" (1, 1) 0 7
    (Or.inr (Or.inl ⟨⟨"A", true, true⟩, by decide, rfl⟩))

/-! ### C6: the score ledger is always sorted and bounded -/

theorem orderedInsert_eq_cons_of_le (a : ScoreEntry) (l : List ScoreEntry)
    (h : ∀ b ∈ l, scoreLe a b) : l.orderedInsert scoreLe a = a :: l := by
  cases l with
  | nil => rfl
  | cons b l2 =>
    rw [List.orderedInsert, if_pos (h b (List.mem_cons_self b l2))]

theorem insertionSort_append_singleton (scores : List ScoreEntry) (e : ScoreEntry)
    (h : scores.Sorted scoreLe) :
    (scores ++ [e]).insertionSort scoreLe =
      scores.takeWhile (fun b => decide (scoreLe b e)) ++
        e :: scores.dropWhile (fun b => decide (scoreLe b e)) := by
  induction scores with
  | nil => rfl
  | cons a rest ih =>
    have hrest : rest.Sorted scoreLe := h.of_cons
    have hamin : ∀ b ∈ rest, scoreLe a b := List.rel_of_sorted_cons h
    rw [List.cons_append, List.insertionSort, ih hrest]
    by_cases hae : scoreLe a e
    · rw [List.takeWhile_cons_of_pos (by simpa using hae),
        List.dropWhile_cons_of_pos (by simpa using hae)]
      cases ht : rest.takeWhile (fun b => decide (scoreLe b e)) with
      | nil =>
        simp only [List.nil_append]
        rw [List.orderedInsert, if_pos hae]
        rfl
      | cons t t2 =>
        have htr : t ∈ rest := by
          have hmem : t ∈ rest.takeWhile (fun b => decide (scoreLe b e)) := by
            rw [ht]
            exact List.mem_cons_self t t2
          exact (List.takeWhile_sublist _).subset hmem
        simp only [List.cons_append]
        rw [List.orderedInsert, if_pos (hamin t htr)]
    · have hea : scoreLe e a := by
        rcases le_total a.time e.time with hle | hle
        · exact absurd hle hae
        · exact hle
      have hall : ∀ b ∈ rest, ¬ scoreLe b e := by
        intro b hb hbe
        exact hae (le_trans (hamin b hb) hbe)
      have ht : rest.takeWhile (fun b => decide (scoreLe b e)) = [] := by
        cases hr : rest with
        | nil => rfl
        | cons b l2 =>
          rw [List.takeWhile_cons_of_neg]
          simpa using hall b (by rw [hr]; exact List.mem_cons_self b l2)
      have hd : rest.dropWhile (fun b => decide (scoreLe b e)) = rest := by
        cases hr : rest with
        | nil => rfl
        | cons b l2 =>
          rw [List.dropWhile_cons_of_neg]
          simpa using hall b (by rw [hr]; exact List.mem_cons_self b l2)
      rw [ht, hd, List.takeWhile_cons_of_neg (by simpa using hae),
        List.dropWhile_cons_of_neg (by simpa using hae), List.nil_append,
        List.nil_append, List.orderedInsert, if_neg hae,
        orderedInsert_eq_cons_of_le a rest hamin]

theorem record_sorted (scores : List ScoreEntry) (e : ScoreEntry) :
    (record scores e).Sorted scoreLe :=
  (List.sorted_insertionSort scoreLe (scores ++ [e])).sublist
    (List.take_sublist _ _)

theorem record_length_le (scores : List ScoreEntry) (e : ScoreEntry) :
    (record scores e).length ≤ MAX_HIGH_SCORES_PER_CONFIG := by
  rw [record, List.length_take]
  exact min_le_left _ _

/-- C6: over any sequence of record calls the stored score list is always
sorted ascending by elapsed time and never longer than 10; moreover one
record call on an already-sorted list places the new entry after every
stored entry with time less than or equal to its own (ties broken by
insertion order) and before every strictly slower entry, then truncates. -/
theorem c6_score_ledger_sorted_bounded (entries : List ScoreEntry)
    (scores : List ScoreEntry) (e : ScoreEntry) (hsorted : scores.Sorted scoreLe) :
    (entries.foldl record []).Sorted scoreLe ∧
    (entries.foldl record []).length ≤ MAX_HIGH_SCORES_PER_CONFIG ∧
    record scores e =
      (scores.takeWhile (fun b => decide (scoreLe b e)) ++
        e :: scores.dropWhile (fun b => decide (scoreLe b e))).take
        MAX_HIGH_SCORES_PER_CONFIG := by
  refine ⟨?_, ?_, ?_⟩
  · induction entries using List.reverseRecOn with
    | nil => exact List.sorted_nil
    | append_singleton l a ih =>
      rw [List.foldl_append, List.foldl_cons, List.foldl_nil]
      exact record_sorted _ _
  · induction entries using List.reverseRecOn with
    | nil => simp [MAX_HIGH_SCORES_PER_CONFIG]
    | append_singleton l a ih =>
      rw [List.foldl_append, List.foldl_cons, List.foldl_nil]
      exact record_length_le _ _
  · rw [record, insertionSort_append_singleton scores e hsorted]

/-- Witness for C6 at concrete entries, including a tie broken in favour of
the earlier-recorded entry. -/
theorem c6_score_ledger_sorted_bounded_witness :
    (([⟨"a", 3⟩, ⟨"b", 1⟩] : List ScoreEntry).foldl record []).Sorted scoreLe ∧
    (([⟨"a", 3⟩, ⟨"b", 1⟩] : List ScoreEntry).foldl record []).length ≤
      MAX_HIGH_SCORES_PER_CONFIG ∧
    record [⟨"a", 1⟩, ⟨"b", 2⟩] ⟨"c", 2⟩ =
      (([⟨"a", 1⟩, ⟨"b", 2⟩] : List ScoreEntry).takeWhile
          (fun b => decide (scoreLe b ⟨"c", 2⟩)) ++
        ⟨"c", 2⟩ :: ([⟨"a", 1⟩, ⟨"b", 2⟩] : List ScoreEntry).dropWhile
          (fun b => decide (scoreLe b ⟨"c", 2⟩))).take MAX_HIGH_SCORES_PER_CONFIG :=
  c6_score_ledger_sorted_bounded [⟨"a", 3⟩, ⟨"b", 1⟩] [⟨"a", 1⟩, ⟨"b", 2⟩] ⟨"c", 2⟩
    (by decide)

/-! ### C8 and C10: the dimensions stage -/

/-- C8: the dimensions stage accepts an input iff it fully matches the
digit-separator-digit pattern and the parsed pair satisfies the positivity,
8 by 9, minimum-size and pool-ceiling bounds; every other input re-prompts
and stays in the dimensions stage. -/
theorem c8_dimensions_stage_acceptance (input : String) :
    (∀ x y, choose_dimensions input = DimsResult.next x y ↔
      (parseDims input = some (x, y) ∧ 0 < x ∧ 0 < y ∧ x ≤ 8 ∧ y ≤ 9 ∧
        2 ≤ x * y ∧ x * y ≤ EMOJI_POOL.length * 10)) ∧
    ((∃ x y, choose_dimensions input = DimsResult.next x y) ∨
      (∃ d, choose_dimensions input = DimsResult.reprompt d)) := by
  constructor
  · intro x y
    unfold choose_dimensions
    cases hp : parseDims input with
    | none =>
      simp
    | some p =>
      obtain ⟨a, b⟩ := p
      dsimp only
      have hlen : EMOJI_POOL.length = 36 := rfl
      by_cases h1 : 8 < a ∨ 9 < b ∨ a = 0 ∨ b = 0
      · rw [if_pos h1]
        constructor
        · intro h
          simp at h
        · rintro ⟨hpe, hx, hy, hx8, hy9, _, _⟩
          have hab := Option.some_inj.mp hpe
          injection hab with ha hb
          subst ha
          subst hb
          omega
      · rw [if_neg h1]
        push_neg at h1
        by_cases h2 : a * b < 2
        · rw [if_pos h2]
          constructor
          · intro h
            simp at h
          · rintro ⟨hpe, _, _, _, _, hmin, _⟩
            have hab := Option.some_inj.mp hpe
            injection hab with ha hb
            subst ha
            subst hb
            omega
        · rw [if_neg h2]
          by_cases h3 : EMOJI_POOL.length * 10 < a * b
          · rw [if_pos h3]
            constructor
            · intro h
              simp at h
            · rintro ⟨hpe, _, _, _, _, _, hmax⟩
              have hab := Option.some_inj.mp hpe
              injection hab with ha hb
              subst ha
              subst hb
              omega
          · rw [if_neg h3]
            constructor
            · intro h
              injection h with ha hb
              subst ha
              subst hb
              exact ⟨rfl, by omega, by omega, by omega, by omega, by omega, by omega⟩
            · rintro ⟨hpe, _⟩
              have hab := Option.some_inj.mp hpe
              injection hab with ha hb
              subst ha
              subst hb
              rfl
  · cases h : choose_dimensions input with
    | reprompt d => exact Or.inr ⟨d, rfl⟩
    | next x y => exact Or.inl ⟨x, y, rfl⟩

/-- C10: the too-large-for-pool diagnostic of the dimensions stage is dead
code: any input passing the 8 by 9 bound has at most 72 cells, far below the
pool ceiling of 360. -/
theorem c10_pool_ceiling_branch_unreachable (input : String) :
    choose_dimensions input ≠ DimsResult.reprompt DimsDiag.poolCeilingError := by
  unfold choose_dimensions
  cases hp : parseDims input with
  | none => simp
  | some p =>
    obtain ⟨a, b⟩ := p
    dsimp only
    by_cases h1 : 8 < a ∨ 9 < b ∨ a = 0 ∨ b = 0
    · rw [if_pos h1]
      simp
    · rw [if_neg h1]
      push_neg at h1
      by_cases h2 : a * b < 2
      · rw [if_pos h2]
        simp
      · rw [if_neg h2]
        have h3 : ¬ (EMOJI_POOL.length * 10 < a * b) := by
          have hlen : EMOJI_POOL.length = 36 := rfl
          rw [hlen]
          obtain ⟨ha, hb, _, _⟩ := h1
          have hmul : a * b ≤ 8 * 9 := Nat.mul_le_mul (by omega) (by omega)
          omega
        rw [if_neg h3]
        simp

/-! ### C7: the group-size stage -/

theorem started_3x3_3 (bd : BotData) (t : ℚ) (shuffle : List String → List String)
    (hshuffle : ∀ l, (shuffle l).Perm l) :
    ∃ st, choose_match_count 3 3 "3" bd t shuffle = .started st ∧
      st.board_cells.length = 9 ∧
      (st.board_cells.map (fun p => p.2.value)).dedup.length = 3 := by
  have hlen9 : (shuffle ((List.range 3).flatMap
      (fun i => List.replicate 3 (EMOJI_POOL.getD i "")))).length = 9 := by
    rw [(hshuffle _).length_eq]
    decide
  have hgen : generate_dynamic_items 3 3 3 shuffle =
      some (shuffle ((List.range 3).flatMap
        (fun i => List.replicate 3 (EMOJI_POOL.getD i "")))) := by
    unfold generate_dynamic_items
    rw [if_neg (by decide), if_neg (by decide), if_neg (by decide)]
  have hinit : get_initial_board_state 3 3 3 shuffle =
      some (shuffle ((List.range 3).flatMap
          (fun i => List.replicate 3 (EMOJI_POOL.getD i ""))),
        ((cellIds 3 3).zip (shuffle ((List.range 3).flatMap
          (fun i => List.replicate 3 (EMOJI_POOL.getD i ""))))).map
          (fun p => (p.1, ⟨p.2, false, false⟩))) := by
    unfold get_initial_board_state
    rw [hgen]
    dsimp only
    rw [if_pos (by rw [hlen9]; decide)]
  have hvals : ((((cellIds 3 3).zip (shuffle ((List.range 3).flatMap
      (fun i => List.replicate 3 (EMOJI_POOL.getD i ""))))).map
        (fun p => ((p.1, ⟨p.2, false, false⟩) : CellId × CellInfo))).map
        (fun p => p.2.value)) =
      shuffle ((List.range 3).flatMap
        (fun i => List.replicate 3 (EMOJI_POOL.getD i ""))) := by
    rw [List.map_map]
    show ((cellIds 3 3).zip (shuffle ((List.range 3).flatMap
      (fun i => List.replicate 3 (EMOJI_POOL.getD i ""))))).map Prod.snd = _
    exact List.map_snd_zip _ _ (by rw [hlen9]; decide)
  have hstep : choose_match_count 3 3 "3" bd t shuffle = .started
      { board_cells := ((cellIds 3 3).zip (shuffle ((List.range 3).flatMap
            (fun i => List.replicate 3 (EMOJI_POOL.getD i ""))))).map
            (fun p => (p.1, ⟨p.2, false, false⟩))
        current_selection := []
        matched_values := []
        match_count := (3 : Int).toNat
        game_items := shuffle ((List.range 3).flatMap
          (fun i => List.replicate 3 (EMOJI_POOL.getD i "")))
        game_start_time := t
        board_size_x := 3
        board_size_y := 3
        bot_data := bd } := by
    unfold choose_match_count
    rw [show parseInt "3" = some 3 from by decide]
    dsimp only
    rw [if_neg (by decide), if_neg (by decide), if_neg (by decide),
      if_neg (by decide)]
    simp only [show (3 : Int).toNat = 3 from rfl]
    rw [hinit]
  refine ⟨_, hstep, ?_, ?_⟩
  · rw [List.length_map, List.length_zip, hlen9]
    decide
  · rw [hvals, ((hshuffle _).dedup).length_eq]
    decide

/-- C7: the group-size stage validates the parsed integer in source order
(range, divisibility, at least two groups, pool capacity), re-prompting on
each failure; and concretely, dimensions 3x3 with group size 3 produce a
ready 9-cell session with 3 distinct symbols while group size 2 fails the
divisibility check and re-prompts. -/
theorem c7_group_size_stage_validation (x y : Nat) (input : String) (bd : BotData)
    (t : ℚ) (shuffle : List String → List String)
    (hshuffle : ∀ l, (shuffle l).Perm l) :
    (choose_match_count x y input bd t shuffle = .reprompt .notAnInt ↔
      parseInt input = none) ∧
    (∀ m, parseInt input = some m →
      ((choose_match_count x y input bd t shuffle = .reprompt .rangeError ↔
          ¬(1 < m ∧ m ≤ ((x * y : Nat) : Int))) ∧
       (choose_match_count x y input bd t shuffle = .reprompt .divisibilityError ↔
          ((1 < m ∧ m ≤ ((x * y : Nat) : Int)) ∧ x * y % m.toNat ≠ 0)) ∧
       (choose_match_count x y input bd t shuffle = .reprompt .tooFewGroupsError ↔
          ((1 < m ∧ m ≤ ((x * y : Nat) : Int)) ∧ x * y % m.toNat = 0 ∧
            x * y / m.toNat ≤ 1 ∧ 1 < x * y)) ∧
       (choose_match_count x y input bd t shuffle = .reprompt .poolError ↔
          ((1 < m ∧ m ≤ ((x * y : Nat) : Int)) ∧ x * y % m.toNat = 0 ∧
            ¬(x * y / m.toNat ≤ 1 ∧ 1 < x * y) ∧
            EMOJI_POOL.length < x * y / m.toNat)))) ∧
    choose_dimensions "3x3" = DimsResult.next 3 3 ∧
    (∃ st, choose_match_count 3 3 "3" bd t shuffle = .started st ∧
      st.board_cells.length = 9 ∧
      (st.board_cells.map (fun p => p.2.value)).dedup.length = 3) ∧
    choose_match_count 3 3 "2" bd t shuffle = .reprompt .divisibilityError := by
  refine ⟨?_, ?_, by decide, started_3x3_3 bd t shuffle hshuffle, ?_⟩
  · cases hpi : parseInt input with
    | none =>
      have hres : choose_match_count x y input bd t shuffle = .reprompt .notAnInt := by
        unfold choose_match_count
        rw [hpi]
      rw [hres]
      exact iff_of_true rfl rfl
    | some m =>
      constructor
      · intro hr
        by_cases h1 : ¬(1 < m ∧ m ≤ ((x * y : Nat) : Int))
        · have hres : choose_match_count x y input bd t shuffle =
              .reprompt .rangeError := by
            unfold choose_match_count
            rw [hpi]
            dsimp only
            rw [if_pos h1]
          rw [hres] at hr
          simp at hr
        · have hres2 : ∀ d2, choose_match_count x y input bd t shuffle =
              .reprompt d2 → d2 ≠ .notAnInt → False := fun d2 hd hne => by
            rw [hd] at hr
            injection hr with hdiag
            exact hne hdiag
          rw [not_not] at h1
          by_cases h2 : x * y % m.toNat ≠ 0
          · have hres : choose_match_count x y input bd t shuffle =
                .reprompt .divisibilityError := by
              unfold choose_match_count
              rw [hpi]
              dsimp only
              rw [if_neg (not_not_intro h1), if_pos h2]
            rw [hres] at hr
            simp at hr
          · rw [not_not] at h2
            by_cases h3 : x * y / m.toNat ≤ 1 ∧ 1 < x * y
            · have hres : choose_match_count x y input bd t shuffle =
                  .reprompt .tooFewGroupsError := by
                unfold choose_match_count
                rw [hpi]
                dsimp only
                rw [if_neg (not_not_intro h1), if_neg (not_not_intro h2), if_pos h3]
              rw [hres] at hr
              simp at hr
            · by_cases h4 : EMOJI_POOL.length < x * y / m.toNat
              · have hres : choose_match_count x y input bd t shuffle =
                    .reprompt .poolError := by
                  unfold choose_match_count
                  rw [hpi]
                  dsimp only
                  rw [if_neg (not_not_intro h1), if_neg (not_not_intro h2),
                    if_neg h3, if_pos h4]
                rw [hres] at hr
                simp at hr
              · cases hg : get_initial_board_state x y m.toNat shuffle with
                | none =>
                  have hres : choose_match_count x y input bd t shuffle = .failed := by
                    unfold choose_match_count
                    rw [hpi]
                    dsimp only
                    rw [if_neg (not_not_intro h1), if_neg (not_not_intro h2),
                      if_neg h3, if_neg h4, hg]
                  rw [hres] at hr
                  simp at hr
                | some p =>
                  have hres : choose_match_count x y input bd t shuffle = .started
                      { board_cells := p.2
                        current_selection := []
                        matched_values := []
                        match_count := m.toNat
                        game_items := p.1
                        game_start_time := t
                        board_size_x := x
                        board_size_y := y
                        bot_data := bd } := by
                    unfold choose_match_count
                    rw [hpi]
                    dsimp only
                    rw [if_neg (not_not_intro h1), if_neg (not_not_intro h2),
                      if_neg h3, if_neg h4, hg]
                  rw [hres] at hr
                  simp at hr
      · intro hn
        simp at hn
  · intro m hm
    by_cases h1 : ¬(1 < m ∧ m ≤ ((x * y : Nat) : Int))
    · have hres : choose_match_count x y input bd t shuffle =
          .reprompt .rangeError := by
        unfold choose_match_count
        rw [hm]
        dsimp only
        rw [if_pos h1]
      rw [hres]
      refine ⟨iff_of_true rfl h1, iff_of_false (by simp) ?_, iff_of_false (by simp) ?_,
        iff_of_false (by simp) ?_⟩
      · rintro ⟨hc, _⟩
        exact h1 hc
      · rintro ⟨hc, _⟩
        exact h1 hc
      · rintro ⟨hc, _⟩
        exact h1 hc
    · rw [not_not] at h1
      by_cases h2 : x * y % m.toNat ≠ 0
      · have hres : choose_match_count x y input bd t shuffle =
            .reprompt .divisibilityError := by
          unfold choose_match_count
          rw [hm]
          dsimp only
          rw [if_neg (not_not_intro h1), if_pos h2]
        rw [hres]
        refine ⟨iff_of_false (by simp) (not_not_intro h1),
          iff_of_true rfl ⟨h1, h2⟩, iff_of_false (by simp) ?_,
          iff_of_false (by simp) ?_⟩
        · rintro ⟨_, hc, _⟩
          exact h2 hc
        · rintro ⟨_, hc, _⟩
          exact h2 hc
      · rw [not_not] at h2
        by_cases h3 : x * y / m.toNat ≤ 1 ∧ 1 < x * y
        · have hres : choose_match_count x y input bd t shuffle =
              .reprompt .tooFewGroupsError := by
            unfold choose_match_count
            rw [hm]
            dsimp only
            rw [if_neg (not_not_intro h1), if_neg (not_not_intro h2), if_pos h3]
          rw [hres]
          refine ⟨iff_of_false (by simp) (not_not_intro h1),
            iff_of_false (by simp) ?_, iff_of_true rfl ⟨h1, h2, h3.1, h3.2⟩,
            iff_of_false (by simp) ?_⟩
          · rintro ⟨_, hc⟩
            exact hc h2
          · rintro ⟨_, _, hc, _⟩
            exact hc h3
        · by_cases h4 : EMOJI_POOL.length < x * y / m.toNat
          · have hres : choose_match_count x y input bd t shuffle =
                .reprompt .poolError := by
              unfold choose_match_count
              rw [hm]
              dsimp only
              rw [if_neg (not_not_intro h1), if_neg (not_not_intro h2),
                if_neg h3, if_pos h4]
            rw [hres]
            refine ⟨iff_of_false (by simp) (not_not_intro h1),
              iff_of_false (by simp) ?_, iff_of_false (by simp) ?_,
              iff_of_true rfl ⟨h1, h2, h3, h4⟩⟩
            · rintro ⟨_, hc⟩
              exact hc h2
            · rintro ⟨_, _, hc1, hc2⟩
              exact h3 ⟨hc1, hc2⟩
          · have hiffs : ∀ r : MatchCountResult, (∀ d, r ≠ .reprompt d) →
                ((r = .reprompt .rangeError ↔
                  ¬(1 < m ∧ m ≤ ((x * y : Nat) : Int))) ∧
                 (r = .reprompt .divisibilityError ↔
                  ((1 < m ∧ m ≤ ((x * y : Nat) : Int)) ∧ x * y % m.toNat ≠ 0)) ∧
                 (r = .reprompt .tooFewGroupsError ↔
                  ((1 < m ∧ m ≤ ((x * y : Nat) : Int)) ∧ x * y % m.toNat = 0 ∧
                    x * y / m.toNat ≤ 1 ∧ 1 < x * y)) ∧
                 (r = .reprompt .poolError ↔
                  ((1 < m ∧ m ≤ ((x * y : Nat) : Int)) ∧ x * y % m.toNat = 0 ∧
                    ¬(x * y / m.toNat ≤ 1 ∧ 1 < x * y) ∧
                    EMOJI_POOL.length < x * y / m.toNat))) := by
              intro r hr
              refine ⟨iff_of_false (hr _) (not_not_intro h1),
                iff_of_false (hr _) ?_, iff_of_false (hr _) ?_,
                iff_of_false (hr _) ?_⟩
              · rintro ⟨_, hc⟩
                exact hc h2
              · rintro ⟨_, _, hc1, hc2⟩
                exact h3 ⟨hc1, hc2⟩
              · rintro ⟨_, _, _, hc⟩
                exact h4 hc
            cases hg : get_initial_board_state x y m.toNat shuffle with
            | none =>
              have hres : choose_match_count x y input bd t shuffle = .failed := by
                unfold choose_match_count
                rw [hm]
                dsimp only
                rw [if_neg (not_not_intro h1), if_neg (not_not_intro h2),
                  if_neg h3, if_neg h4, hg]
              rw [hres]
              exact hiffs _ (by intro d h; simp at h)
            | some p =>
              have hres : choose_match_count x y input bd t shuffle = .started
                  { board_cells := p.2
                    current_selection := []
                    matched_values := []
                    match_count := m.toNat
                    game_items := p.1
                    game_start_time := t
                    board_size_x := x
                    board_size_y := y
                    bot_data := bd } := by
                unfold choose_match_count
                rw [hm]
                dsimp only
                rw [if_neg (not_not_intro h1), if_neg (not_not_intro h2),
                  if_neg h3, if_neg h4, hg]
              rw [hres]
              exact hiffs _ (by intro d h; simp at h)
  · have hres : choose_match_count 3 3 "2" bd t shuffle =
        .reprompt .divisibilityError := by
      unfold choose_match_count
      rw [show parseInt "2" = some 2 from by decide]
      dsimp only
      rw [if_neg (by decide), if_pos (by decide)]
    exact hres

/-- Witness for C7: scenario C concretely, with the identity permutation as
the shuffle. -/
theorem c7_group_size_stage_validation_witness :
    choose_dimensions "3x3" = DimsResult.next 3 3 ∧
    choose_match_count 3 3 "2" [] 0 id = .reprompt .divisibilityError := by
  have h := c7_group_size_stage_validation 3 3 "2" [] 0 id (fun l => List.Perm.refl l)
  exact ⟨h.2.2.1, h.2.2.2.2⟩

/-! ### C1: board generation multiplicity, and the corrupted pool -/

/-- C1 failing evaluation: the configuration width 6, height 7, group_size 2
is valid (divisible, 2 <= group_count = 21 <= pool length 36) and generation
succeeds, but because the stored pool is encoding-corrupted its entries 5
and 20 are the same string, so that symbol occupies 4 cells instead of
group_size = 2: the first 21 tokens are not pairwise distinct. -/
theorem c1_board_multiplicity_fails_on_corrupted_pool :
    EMOJI_POOL.getD 5 "" = EMOJI_POOL.getD 20 "" ∧
    ¬ (EMOJI_POOL.take (6 * 7 / 2)).Nodup ∧
    (6 * 7) % 2 = 0 ∧ 2 ≤ (6 * 7) / 2 ∧ (6 * 7) / 2 ≤ EMOJI_POOL.length ∧
    (get_initial_board_state 6 7 2 id).map
      (fun p => (p.2.map (fun q => q.2.value)).count (EMOJI_POOL.getD 20 "")) =
      some 4 ∧
    (4 : Nat) ≠ 2 := by decide

theorem map_getD_range_eq_take {α : Type} (l : List α) (d : α) (n : Nat)
    (hn : n ≤ l.length) :
    (List.range n).map (fun i => l.getD i d) = l.take n := by
  apply List.ext_getElem
  · simp [hn]
  · intro i h1 h2
    rw [List.getElem_map, List.getElem_range, List.getElem_take,
      List.getD_eq_getElem]

theorem count_flatMap_replicate (l : List String) (hl : l.Nodup) (mc : Nat)
    (s : String) :
    ((l.flatMap (List.replicate mc)).count s) = if s ∈ l then mc else 0 := by
  induction l with
  | nil => simp
  | cons a rest ih =>
    rw [List.nodup_cons] at hl
    rw [List.flatMap_cons, List.count_append, ih hl.2, List.count_replicate]
    by_cases hsa : s = a
    · rw [if_pos (by rw [hsa]; exact beq_self_eq_true a), if_neg (by rw [hsa]; exact hl.1),
        if_pos (by rw [hsa]; exact List.mem_cons_self a rest)]
      omega
    · rw [if_neg (by simp only [beq_iff_eq]; exact fun h => hsa h.symm), Nat.zero_add]
      by_cases hsr : s ∈ rest
      · rw [if_pos hsr, if_pos (List.mem_cons_of_mem a hsr)]
      · rw [if_neg hsr, if_neg (by simp [hsa, hsr])]

theorem length_flatMap_replicate (l : List String) (mc : Nat) :
    (l.flatMap (List.replicate mc)).length = l.length * mc := by
  induction l with
  | nil => simp
  | cons a rest ih =>
    rw [List.flatMap_cons, List.length_append, List.length_replicate, ih,
      List.length_cons, Nat.succ_mul]
    omega

theorem cellIds_length (w h : Nat) : (cellIds w h).length = w * h := by
  induction h with
  | zero => simp [cellIds]
  | succ n ih =>
    rw [cellIds, List.range'_concat, List.flatMap_append] at *
    rw [List.length_append, ih, List.flatMap_cons, List.flatMap_nil,
      List.length_append, List.length_map, List.length_range', List.length_nil,
      Nat.mul_succ]
    omega

/-- The generation algorithm itself is correct: when the first group_count
pool entries are pairwise distinct (which the corrupted stored pool violates
for group_count of 21 or more), every valid configuration succeeds and
yields a row-major board in which each selected token occupies exactly
group_size cells, all initially hidden and unlocked. -/
theorem generate_board_correct_of_nodup_take (w h mc : Nat)
    (shuffle : List String → List String)
    (hmc : 1 < mc) (hdvd : (w * h) % mc = 0)
    (hgc2 : 2 ≤ w * h / mc) (hgcpool : w * h / mc ≤ EMOJI_POOL.length)
    (hnodup : (EMOJI_POOL.take (w * h / mc)).Nodup)
    (hshuffle : ∀ l, (shuffle l).Perm l) :
    ∃ items board, get_initial_board_state w h mc shuffle = some (items, board) ∧
      board.map Prod.fst = cellIds w h ∧
      (∀ s, (board.map (fun p => p.2.value)).count s =
        if s ∈ EMOJI_POOL.take (w * h / mc) then mc else 0) ∧
      (∀ p ∈ board, p.2.revealed = false ∧ p.2.permanently_revealed = false) := by
  have hbase : (List.range (w * h / mc)).flatMap
      (fun i => List.replicate mc (EMOJI_POOL.getD i "")) =
      (EMOJI_POOL.take (w * h / mc)).flatMap (List.replicate mc) := by
    rw [← map_getD_range_eq_take EMOJI_POOL "" (w * h / mc) hgcpool,
      List.flatMap_map]
  have hbaselen : ((List.range (w * h / mc)).flatMap
      (fun i => List.replicate mc (EMOJI_POOL.getD i ""))).length = w * h := by
    rw [hbase, length_flatMap_replicate, List.length_take,
      min_eq_left hgcpool, Nat.div_mul_cancel (Nat.dvd_of_mod_eq_zero hdvd)]
  have hgen : generate_dynamic_items w h mc shuffle =
      some (shuffle ((List.range (w * h / mc)).flatMap
        (fun i => List.replicate mc (EMOJI_POOL.getD i "")))) := by
    unfold generate_dynamic_items
    rw [if_neg (not_not_intro hdvd), if_neg (by rintro ⟨hle, _⟩; omega),
      if_neg (not_lt.mpr hgcpool)]
  have hitemslen : (shuffle ((List.range (w * h / mc)).flatMap
      (fun i => List.replicate mc (EMOJI_POOL.getD i "")))).length = w * h := by
    rw [(hshuffle _).length_eq, hbaselen]
  have hidslen : (cellIds w h).length = w * h := cellIds_length w h
  have hinit : get_initial_board_state w h mc shuffle =
      some (shuffle ((List.range (w * h / mc)).flatMap
          (fun i => List.replicate mc (EMOJI_POOL.getD i ""))),
        ((cellIds w h).zip (shuffle ((List.range (w * h / mc)).flatMap
          (fun i => List.replicate mc (EMOJI_POOL.getD i ""))))).map
          (fun p => (p.1, ⟨p.2, false, false⟩))) := by
    unfold get_initial_board_state
    rw [hgen]
    dsimp only
    rw [if_pos (by rw [hitemslen, hidslen])]
  refine ⟨_, _, hinit, ?_, ?_, ?_⟩
  · rw [List.map_map]
    show ((cellIds w h).zip _).map Prod.fst = cellIds w h
    exact List.map_fst_zip _ _ (by rw [hitemslen, hidslen])
  · intro s
    rw [List.map_map]
    have hv : ((cellIds w h).zip (shuffle ((List.range (w * h / mc)).flatMap
        (fun i => List.replicate mc (EMOJI_POOL.getD i ""))))).map
        ((fun p => p.2.value) ∘ (fun p => ((p.1, ⟨p.2, false, false⟩) :
          CellId × CellInfo))) =
        shuffle ((List.range (w * h / mc)).flatMap
          (fun i => List.replicate mc (EMOJI_POOL.getD i ""))) := by
      show ((cellIds w h).zip _).map Prod.snd = _
      exact List.map_snd_zip _ _ (by rw [hitemslen, hidslen])
    rw [hv, (hshuffle _).count_eq, hbase,
      count_flatMap_replicate _ hnodup mc s]
  · intro p hp
    rw [List.mem_map] at hp
    obtain ⟨q, _, hq⟩ := hp
    rw [← hq]
    exact ⟨rfl, rfl⟩
